import Mathlib

/-!
# Verification of the `tectonic` solver core

Shallow embedding of the Rust sources of the `tectonic` repository
(`src/simple_09_set.rs`, `src/line_column.rs`, `src/neighboring_line_columns.rs`,
`src/grid.rs`, `src/solver.rs`) and proofs about the claims of the
specification.

Modelling conventions:
* `u8`/`usize` digits and counts become `Nat`; `i32` coordinates and recursion
  levels become `Int`.
* Rust `HashMap`s become association lists iterated in list order.  Rust's
  iteration order over a `HashMap` is arbitrary; the embedding fixes one
  concrete order (the association-list order), which realises one admissible
  execution of the source.
* Rust `HashSet<LineColumn>` (zone membership) becomes a `List LineColumn`.
* The recursive solving loop (`Solver::solve`) is driven by an explicit fuel
  parameter: the Rust loop terminates on every input, and every terminating
  run is reproduced by all sufficiently large fuels; fuel exhaustion is
  modelled by the (in Rust unreachable) `BadImplementation` error after the
  `while true` loop.
* `.unwrap()` calls on lookups that cannot fail on structurally well-formed
  grids (every cell's zone exists, every zone member exists as a cell) are
  modelled with `Option.getD`; the theorems that need them carry the
  corresponding well-formedness hypotheses.
* Speculative "try and see" attempts (grid clone plus recursive solve, in
  `Solver::solve_try_and_see`) are recorded in a ghost log (the recursion
  level at which each attempt is started).  The log is returned next to the
  results and is never consulted by the algorithm itself.
-/

namespace Tectonic

/-! ## `simple_09_set.rs` -/

/-- `digit_mask_bit` of `simple_09_set.rs`: bit mask for the digits 0 to 9,
anything else maps to the empty mask. -/
def digit_mask_bit (digit : Nat) : Nat :=
  match digit with
  | 0 => 1
  | 1 => 2
  | 2 => 4
  | 3 => 8
  | 4 => 16
  | 5 => 32
  | 6 => 64
  | 7 => 128
  | 8 => 256
  | 9 => 512
  | _ => 0

/-- `not_digit_mask_bit` of `simple_09_set.rs`: the u16 complement of
`digit_mask_bit digit` with the bits above bit 9 cleared again (`!mask & 1023`).
Since `digit_mask_bit digit` has no bit above bit 9, this equals
`1023 ^^^ digit_mask_bit digit`. -/
def not_digit_mask_bit (digit : Nat) : Nat :=
  1023 ^^^ digit_mask_bit digit

/-- `Simple09Set` of `simple_09_set.rs`: a set of digits 0..9 stored as a
bit mask (`u16` in the source). -/
structure Simple09Set where
  mask : Nat
deriving DecidableEq

/-- `Simple09Set::default()`: the empty set (mask 0). -/
def Simple09Set.empty : Simple09Set := ⟨0⟩

instance : Inhabited Simple09Set := ⟨Simple09Set.empty⟩

/-- `Simple09Set::insert`. -/
def Simple09Set.insert (s : Simple09Set) (digit : Nat) : Simple09Set :=
  ⟨s.mask ||| digit_mask_bit digit⟩

/-- `Simple09Set::remove`. -/
def Simple09Set.remove (s : Simple09Set) (digit : Nat) : Simple09Set :=
  ⟨s.mask &&& not_digit_mask_bit digit⟩

/-- `Simple09Set::contains`. -/
def Simple09Set.contains (s : Simple09Set) (digit : Nat) : Bool :=
  s.mask &&& digit_mask_bit digit != 0

/-- `Simple09Set::is_empty`. -/
def Simple09Set.is_empty (s : Simple09Set) : Bool :=
  s.mask == 0

/-- `Simple09Set::as_vec_u8`: the digits of the set in ascending order
(the source pushes `digit` for `digit in 0..=9` whenever `contains digit`). -/
def Simple09Set.as_vec_u8 (s : Simple09Set) : List Nat :=
  (List.range 10).filter (fun digit => s.contains digit)

/-- `Simple09Set::len` (the source takes the length of `as_vec_u8`). -/
def Simple09Set.len (s : Simple09Set) : Nat :=
  s.as_vec_u8.length

/-- `Simple09Set::new`: constructor from a list of digits. -/
def Simple09Set.new (digits : List Nat) : Simple09Set :=
  digits.foldl Simple09Set.insert Simple09Set.empty

/-- The value-returning intersection used by `solver.rs`
(`simple_09_set.rs`'s `intersection` performs the same `&=` on the mask). -/
def Simple09Set.intersection (s other : Simple09Set) : Simple09Set :=
  ⟨s.mask &&& other.mask⟩

/-- The value-returning union (`|=` on the mask in `simple_09_set.rs`). -/
def Simple09Set.union (s other : Simple09Set) : Simple09Set :=
  ⟨s.mask ||| other.mask⟩

/-- Remove every digit of the list from the set (the removal loops of
`solver.rs`: `for n in &vec_n { new_set.remove(*n); }`). -/
def Simple09Set.removeAll (s : Simple09Set) (digits : List Nat) : Simple09Set :=
  digits.foldl Simple09Set.remove s

/-! ## `line_column.rs` -/

/-- `LineColumn` of `line_column.rs`: the (line, column) position of a cell
(`i32` components). -/
structure LineColumn where
  line : Int
  column : Int
deriving DecidableEq

/-- `LineColumn::new`. -/
def LineColumn.new (line column : Int) : LineColumn := ⟨line, column⟩

instance : Inhabited LineColumn := ⟨⟨0, 0⟩⟩

/-- `impl Add for LineColumn`: component-wise addition. -/
instance : Add LineColumn :=
  ⟨fun a b => ⟨a.line + b.line, a.column + b.column⟩⟩

/-- `LineColumn::min` (the source mutates `self` to the component-wise
minimum; modelled as the resulting value). -/
def LineColumn.compMin (a b : LineColumn) : LineColumn :=
  ⟨Min.min a.line b.line, Min.min a.column b.column⟩

/-- `LineColumn::max` (component-wise maximum, as `LineColumn::min`). -/
def LineColumn.compMax (a b : LineColumn) : LineColumn :=
  ⟨Max.max a.line b.line, Max.max a.column b.column⟩

/-! ## `neighboring_line_columns.rs` -/

/-- The fixed direction order of `NeighboringLineColumns::next`. -/
def neighborDirections : List (Int × Int) :=
  [(-1, 0), (-1, 1), (0, 1), (1, 1), (1, 0), (1, -1), (0, -1), (-1, -1)]

/-- The full sequence produced by iterating `NeighboringLineColumns`:
each direction in order, keeping the positions inside the
`[min_line_column, max_line_column]` bounding box. -/
def neighboringLineColumns (lc mn mx : LineColumn) : List LineColumn :=
  neighborDirections.filterMap (fun direction =>
    let nline := lc.line + direction.1
    if mn.line ≤ nline ∧ nline ≤ mx.line then
      let ncolumn := lc.column + direction.2
      if mn.column ≤ ncolumn ∧ ncolumn ≤ mx.column then
        some (LineColumn.new nline ncolumn)
      else
        none
    else
      none)

/-! ## `grid.rs` -/

/-- `Zone` of `grid.rs`.  The `HashSet<LineColumn>` of member positions is
modelled as a list without duplicates (insertion order). -/
structure Zone where
  c_zone : Char
  set_line_column : List LineColumn
deriving DecidableEq

/-- `Zone::default()`. -/
def Zone.default : Zone := ⟨Char.ofNat 0, []⟩

/-- `CellContent` as used by `solver.rs`: `Undefined`, `Number(u8)` or
`PossibleNumbers(Simple09Set)`. -/
inductive CellContent where
  | Undefined
  | Number (n : Nat)
  | PossibleNumbers (s : Simple09Set)
deriving DecidableEq

/-- `Cell` of `grid.rs`. -/
structure Cell where
  c_zone : Char
  line_column : LineColumn
  content : CellContent
deriving DecidableEq

/-- `Cell::default()`. -/
def Cell.default : Cell := ⟨Char.ofNat 0, ⟨0, 0⟩, CellContent.Undefined⟩

instance : Inhabited Cell := ⟨Cell.default⟩

/-- Association-list lookup (first binding of the key), standing in for
`HashMap::get`. -/
def alookup {α β : Type} [DecidableEq α] : List (α × β) → α → Option β
  | [], _ => none
  | (k, v) :: t, a => if k = a then some v else alookup t a

/-- Replace the value stored under the first occurrence of a key,
standing in for mutation through `HashMap::get_mut`. -/
def areplace {α β : Type} [DecidableEq α] : List (α × β) → α → β → List (α × β)
  | [], _, _ => []
  | (k, v) :: t, a, b => if k = a then (k, b) :: t else (k, v) :: areplace t a b

/-- `Grid` of `grid.rs`.  Both `HashMap`s become association lists;
iteration in the source is modelled as iteration in list order. -/
structure Grid where
  min_line_column : LineColumn
  max_line_column : LineColumn
  hashmap_zones : List (Char × Zone)
  hashmap_cells : List (LineColumn × Cell)
deriving DecidableEq

/-- `Grid::default()`. -/
def Grid.default : Grid := ⟨⟨0, 0⟩, ⟨0, 0⟩, [], []⟩

/-- `Grid::get_cell`. -/
def Grid.get_cell (g : Grid) (lc : LineColumn) : Option Cell :=
  alookup g.hashmap_cells lc

/-- Mutation of one cell's content through `Grid::get_mut_cell`
(`cell.content = …` on the cell stored under the key). -/
def Grid.setCellContent (g : Grid) (lc : LineColumn) (content : CellContent) : Grid :=
  match alookup g.hashmap_cells lc with
  | none => g
  | some cell =>
      { g with hashmap_cells := areplace g.hashmap_cells lc { cell with content := content } }

/-- `Grid::add_cell`: record min/max coordinates, create or extend the zone
(`get_or_create_zone` plus `HashSet::insert`), create or overwrite the cell.
New map entries are appended (one admissible `HashMap` iteration order). -/
def Grid.add_cell (g : Grid) (tuple_line_column : Int × Int) (c_zone : Char)
    (content : Option Nat) : Grid :=
  let lc := LineColumn.new tuple_line_column.1 tuple_line_column.2
  let mn := g.min_line_column.compMin lc
  let mx := g.max_line_column.compMax lc
  let oldZone := (alookup g.hashmap_zones c_zone).getD Zone.default
  let newZone : Zone :=
    { c_zone := c_zone
      set_line_column :=
        if lc ∈ oldZone.set_line_column then oldZone.set_line_column
        else oldZone.set_line_column ++ [lc] }
  let zones :=
    match alookup g.hashmap_zones c_zone with
    | some _ => areplace g.hashmap_zones c_zone newZone
    | none => g.hashmap_zones ++ [(c_zone, newZone)]
  let newCell : Cell :=
    { c_zone := c_zone
      line_column := lc
      content :=
        match content with
        | none => CellContent.Undefined
        | some n => CellContent.Number n }
  let cells :=
    match alookup g.hashmap_cells lc with
    | some _ => areplace g.hashmap_cells lc newCell
    | none => g.hashmap_cells ++ [(lc, newCell)]
  { min_line_column := mn
    max_line_column := mx
    hashmap_zones := zones
    hashmap_cells := cells }

/-- `Grid::add_line`: add every `(zone, content)` pair of the list starting
at column 0. -/
def Grid.add_line (g : Grid) (line : Int) (cells : List (Char × Option Nat)) : Grid :=
  (cells.enum).foldl
    (fun g' p => g'.add_cell (line, Int.ofNat p.1) p.2.1 p.2.2) g

/-- `ParseGridError` of `grid.rs`: the offending (line, column). -/
structure ParseGridError where
  line : Int
  column : Int
deriving DecidableEq

/-- Split a character list at a separator (`str::split`): consecutive
separators produce empty fragments. -/
def splitOnChar (sep : Char) : List Char → List (List Char)
  | [] => [[]]
  | c :: t =>
      let r := splitOnChar sep t
      if c = sep then [] :: r
      else (c :: r.headD []) :: r.tail

/-- `str::trim` on a character list (leading and trailing whitespace). -/
def trimChars (l : List Char) : List Char :=
  ((l.dropWhile Char.isWhitespace).reverse.dropWhile Char.isWhitespace).reverse

/-- `char::to_digit(10)`. -/
def charToDigit10 (c : Char) : Option Nat :=
  if c.isDigit then some (c.toNat - 48) else none

/-- The token loop of `Grid::from_str`: `column` is the number of the last
token processed (initially `-1`). -/
def parseCells : List (List Char) → Int → Int → Grid → Except ParseGridError Grid
  | [], _, _, g => Except.ok g
  | tok :: rest, line, column, g =>
      if tok.isEmpty then
        -- space between spaces: skipped without counting a column
        parseCells rest line column g
      else
        let column := column + 1
        if tok.length = 1 then
          parseCells rest line column (g.add_cell (line, column) (tok.headD ' ') none)
        else if tok.length = 2 then
          match charToDigit10 (tok.getD 1 ' ') with
          | none => Except.error ⟨line, column⟩
          | some n =>
              parseCells rest line column (g.add_cell (line, column) (tok.headD ' ') (some n))
        else
          Except.error ⟨line, column⟩

/-- The line loop of `Grid::from_str`: `line` is the number of the last
non-empty line processed (initially `-1`). -/
def parseLines : List (List Char) → Int → Grid → Except ParseGridError Grid
  | [], _, g => Except.ok g
  | strLine :: rest, line, g =>
      let t := trimChars strLine
      if t.isEmpty then parseLines rest line g
      else
        let line := line + 1
        match parseCells (splitOnChar ' ' t) line (-1) g with
        | Except.error e => Except.error e
        | Except.ok g' => parseLines rest line g'

/-- `Grid::from_str` (`impl FromStr for Grid`): split the input into lines,
skip the empty (after trimming) ones, and read each remaining line as a
whitespace-separated list of 1- or 2-character cell tokens. -/
def Grid.fromStr (s : String) : Except ParseGridError Grid :=
  parseLines (splitOnChar (Char.ofNat 10) s.toList) (-1) Grid.default

/-! ## `solver.rs` — data model -/

/-- `DEFAULT_MAX_TRY_AND_SEE_RECURSION_LEVEL` of `solver.rs`. -/
def DEFAULT_MAX_TRY_AND_SEE_RECURSION_LEVEL : Int := 3

/-- `SolvingOption` of `solver.rs`.  The print/callback options
(`StepPrintAction`, `StepCallbackAction`, `StepPrintGrid`,
`StepCallbackSolver`) only produce output and never alter control flow or
state; only the option carrying data that the algorithm reads is modelled. -/
inductive SolvingOption where
  | MaxTryAndSeeRecursionLevel (level : Int)
deriving DecidableEq

/-- `SolvingOption::get_max_try_and_see_recursion_level`: the first
`MaxTryAndSeeRecursionLevel` option, or the default. -/
def get_max_try_and_see_recursion_level : List SolvingOption → Int → Int
  | [], default_level => default_level
  | SolvingOption.MaxTryAndSeeRecursionLevel level :: _, _ => level

/-- `SolvingAction` of `solver.rs`. -/
inductive SolvingAction where
  | Solved
  | InitPossibleNumbers
  | SinglePossibleNumber (lc : LineColumn) (n : Nat)
  | NumbersInZone (lc : LineColumn) (c_zone : Char) (vec_n : List Nat)
  | OnlyNumberInZone (c_zone : Char) (lc : LineColumn) (n : Nat)
  | NumbersNeighboring (lc : LineColumn) (vec_n : List Nat)
  | DualValuesPair (lc_pair_1 lc_pair_2 lc : LineColumn) (vec_n : List Nat)
  | TryAndSolve (lc : LineColumn) (n_ok autre_n : Nat)
  | TryAndFail (lc : LineColumn) (n_fail n_ok : Nat)
  | NoAction
deriving DecidableEq

/-- `SolvingError` of `solver.rs`. -/
inductive SolvingError where
  | ZoneTooLong (c_zone : Char)
  | ZoneWithUnexpectedNumber (c_zone : Char) (lc : LineColumn) (n : Nat)
  | NeighboringWithSameNumber (lc_1 lc_2 : LineColumn) (n : Nat)
  | ZoneWithSameNumber (c_zone : Char) (n : Nat)
  | NoPossibleNumber (lc : LineColumn)
  | BadImplementation
deriving DecidableEq

/-- `DifficultyLevel` of `solver.rs` (derived `Ord`: declaration order). -/
inductive DifficultyLevel where
  | Unknown
  | Easy
  | Medium
  | Hard
  | VeryHard
deriving DecidableEq

/-- Rank of a difficulty level in the derived order. -/
def DifficultyLevel.toNat : DifficultyLevel → Nat
  | DifficultyLevel.Unknown => 0
  | DifficultyLevel.Easy => 1
  | DifficultyLevel.Medium => 2
  | DifficultyLevel.Hard => 3
  | DifficultyLevel.VeryHard => 4

/-- `DifficultyLevel::max` (from the derived `Ord`). -/
def DifficultyLevel.dmax (a b : DifficultyLevel) : DifficultyLevel :=
  if a.toNat ≤ b.toNat then b else a

/-- The derived order on `DifficultyLevel`. -/
def DifficultyLevel.dle (a b : DifficultyLevel) : Prop :=
  a.toNat ≤ b.toNat

instance (a b : DifficultyLevel) : Decidable (a.dle b) := by
  unfold DifficultyLevel.dle
  infer_instance

/-- `Solver` of `solver.rs`. -/
structure Solver where
  grid : Grid
  init_cell_contents : Bool
  difficulty_level : DifficultyLevel
  max_try_and_see_recursion_level : Int
  try_and_see_recursion_level : Int
deriving DecidableEq

/-- `Solver::new`. -/
def Solver.new (grid : Grid) : Solver :=
  { grid := grid
    init_cell_contents := false
    difficulty_level := DifficultyLevel.Unknown
    max_try_and_see_recursion_level := DEFAULT_MAX_TRY_AND_SEE_RECURSION_LEVEL
    try_and_see_recursion_level := 0 }

/-- `Solver::is_solved`: true iff every cell holds a `Number`. -/
def Solver.is_solved (s : Solver) : Bool :=
  s.grid.hashmap_cells.all (fun p =>
    match p.2.content with
    | CellContent.Number _ => true
    | _ => false)

/-! ## `solver.rs` — consistency checks -/

/-- Loop body of `Solver::check_zone_too_long`. -/
def checkZoneTooLongGo : List (Char × Zone) → Except SolvingError Unit
  | [] => Except.ok ()
  | (c_zone, zone) :: t =>
      if 9 < zone.set_line_column.length then Except.error (SolvingError.ZoneTooLong c_zone)
      else checkZoneTooLongGo t

/-- `Solver::check_zone_too_long`: no zone has more than 9 cells. -/
def check_zone_too_long (g : Grid) : Except SolvingError Unit :=
  checkZoneTooLongGo g.hashmap_zones

/-- Inner loop of `Solver::check_zone_with_unexpected_number` (missing member
cells would panic on `.unwrap()` in the source and are skipped here; the
theorems about this check assume well-formed grids). -/
def checkZoneUnexpectedCells (g : Grid) (c_zone : Char) (zone_len : Nat) :
    List LineColumn → Except SolvingError Unit
  | [] => Except.ok ()
  | lc :: t =>
      match g.get_cell lc with
      | some cell =>
          match cell.content with
          | CellContent.Number n =>
              if zone_len < n then
                Except.error (SolvingError.ZoneWithUnexpectedNumber c_zone lc n)
              else checkZoneUnexpectedCells g c_zone zone_len t
          | _ => checkZoneUnexpectedCells g c_zone zone_len t
      | none => checkZoneUnexpectedCells g c_zone zone_len t

/-- Outer loop of `Solver::check_zone_with_unexpected_number`. -/
def checkZoneUnexpectedGo (g : Grid) : List (Char × Zone) → Except SolvingError Unit
  | [] => Except.ok ()
  | (c_zone, zone) :: t =>
      match checkZoneUnexpectedCells g c_zone zone.set_line_column.length zone.set_line_column with
      | Except.error e => Except.error e
      | Except.ok _ => checkZoneUnexpectedGo g t

/-- `Solver::check_zone_with_unexpected_number`: no finalized digit exceeds
the size of its zone. -/
def check_zone_with_unexpected_number (g : Grid) : Except SolvingError Unit :=
  checkZoneUnexpectedGo g g.hashmap_zones

/-- Neighbour scan of `Solver::check_neighboring_cells`: first neighbouring
position holding the same digit. -/
def findNeighborSameNumber (g : Grid) (n : Nat) : List LineColumn → Option LineColumn
  | [] => none
  | nlc :: t =>
      match g.get_cell nlc with
      | some ncell =>
          match ncell.content with
          | CellContent.Number m =>
              if n = m then some nlc else findNeighborSameNumber g n t
          | _ => findNeighborSameNumber g n t
      | none => findNeighborSameNumber g n t

/-- Outer loop of `Solver::check_neighboring_cells`. -/
def checkNeighboringGo (g : Grid) : List (LineColumn × Cell) → Except SolvingError Unit
  | [] => Except.ok ()
  | (lc, cell) :: t =>
      match cell.content with
      | CellContent.Number n =>
          match findNeighborSameNumber g n
              (neighboringLineColumns lc g.min_line_column g.max_line_column) with
          | some nlc => Except.error (SolvingError.NeighboringWithSameNumber lc nlc n)
          | none => checkNeighboringGo g t
      | _ => checkNeighboringGo g t

/-- `Solver::check_neighboring_cells`: no two 8-neighbouring cells hold the
same finalized digit. -/
def check_neighboring_cells (g : Grid) : Except SolvingError Unit :=
  checkNeighboringGo g g.hashmap_cells

/-- Inner loop of `Solver::check_zone_numbers`: accumulate the digits seen in
the zone, failing on the first digit seen twice. -/
def checkZoneNumbersCells (g : Grid) (c_zone : Char) (zone_numbers : Simple09Set) :
    List LineColumn → Except SolvingError Unit
  | [] => Except.ok ()
  | lc :: t =>
      match g.get_cell lc with
      | some cell =>
          match cell.content with
          | CellContent.Number n =>
              if zone_numbers.contains n then
                Except.error (SolvingError.ZoneWithSameNumber c_zone n)
              else checkZoneNumbersCells g c_zone (zone_numbers.insert n) t
          | _ => checkZoneNumbersCells g c_zone zone_numbers t
      | none => checkZoneNumbersCells g c_zone zone_numbers t

/-- Outer loop of `Solver::check_zone_numbers`. -/
def checkZoneNumbersGo (g : Grid) : List (Char × Zone) → Except SolvingError Unit
  | [] => Except.ok ()
  | (c_zone, zone) :: t =>
      match checkZoneNumbersCells g c_zone Simple09Set.empty zone.set_line_column with
      | Except.error e => Except.error e
      | Except.ok _ => checkZoneNumbersGo g t

/-- `Solver::check_zone_numbers`: no digit appears twice in a zone. -/
def check_zone_numbers (g : Grid) : Except SolvingError Unit :=
  checkZoneNumbersGo g g.hashmap_zones

/-- Loop of `Solver::check_cell_with_no_possible_values`. -/
def checkNoPossibleGo : List (LineColumn × Cell) → Except SolvingError Unit
  | [] => Except.ok ()
  | (lc, cell) :: t =>
      match cell.content with
      | CellContent.PossibleNumbers set =>
          if set.is_empty then Except.error (SolvingError.NoPossibleNumber lc)
          else checkNoPossibleGo t
      | _ => checkNoPossibleGo t

/-- `Solver::check_cell_with_no_possible_values`. -/
def check_cell_with_no_possible_values (g : Grid) : Except SolvingError Unit :=
  checkNoPossibleGo g.hashmap_cells

/-- The two checks of `Solver::check` that run only before candidate
initialization. -/
def checkInitial (s : Solver) : Except SolvingError Unit :=
  if s.init_cell_contents = false then
    match check_zone_too_long s.grid with
    | Except.error e => Except.error e
    | Except.ok _ => check_zone_with_unexpected_number s.grid
  else Except.ok ()

/-- `Solver::check`: the zone-size and digit-vs-zone-size checks run only
before candidate initialization, then the neighbour, zone-duplicate and
empty-candidate checks (each `?` short-circuits on the first error). -/
def Solver.check (s : Solver) : Except SolvingError Unit :=
  match checkInitial s with
  | Except.error e => Except.error e
  | Except.ok _ =>
      match check_neighboring_cells s.grid with
      | Except.error e => Except.error e
      | Except.ok _ =>
          match check_zone_numbers s.grid with
          | Except.error e => Except.error e
          | Except.ok _ => check_cell_with_no_possible_values s.grid

/-! ## `solver.rs` — propagation rules -/

/-- Result of one rule or one step: the action, the mutated solver, and the
ghost log of speculative-attempt recursion levels (see the header). -/
structure RuleOut where
  action : SolvingAction
  solver : Solver
  tsLog : List Int
deriving DecidableEq

/-- Candidate set `{1..=nb_cases}` for a zone of `nb_cases` cells
(`solve_step_possible_numbers`'s per-zone loop). -/
def fullCandidates (nb_cases : Nat) : Simple09Set :=
  (List.range nb_cases).foldl (fun acc i => acc.insert (i + 1)) Simple09Set.empty

/-- Per-zone candidate sets (`zone_hash_map` of `solve_step_possible_numbers`). -/
def zoneFullSets (zones : List (Char × Zone)) : List (Char × Simple09Set) :=
  zones.map (fun p => (p.1, fullCandidates p.2.set_line_column.length))

/-- The rewrite of one cell in `solve_step_possible_numbers`: an `Undefined`
cell receives the full candidate set of its zone, others are untouched. -/
def initCellContent (zmap : List (Char × Simple09Set)) (cell : Cell) : Cell :=
  match cell.content with
  | CellContent.Undefined =>
      { cell with
        content := CellContent.PossibleNumbers
          ((alookup zmap cell.c_zone).getD Simple09Set.empty) }
  | _ => cell

/-- The cell rewrite of `solve_step_possible_numbers` over `values_mut()`. -/
def initCells (zmap : List (Char × Simple09Set)) (cells : List (LineColumn × Cell)) :
    List (LineColumn × Cell) :=
  cells.map (fun p => (p.1, initCellContent zmap p.2))

/-- `Solver::solve_step_possible_numbers`. -/
def solve_step_possible_numbers (s : Solver) : RuleOut :=
  ⟨SolvingAction.InitPossibleNumbers,
   { s with grid := { s.grid with
       hashmap_cells := initCells (zoneFullSets s.grid.hashmap_zones) s.grid.hashmap_cells } },
   []⟩

/-- Loop of `Solver::solve_single_possible_number` over `values_mut()`:
first cell whose candidate set has exactly one member is finalized in place. -/
def singleGo : List (LineColumn × Cell) → Option (List (LineColumn × Cell) × LineColumn × Nat)
  | [] => none
  | (k, cell) :: t =>
      match cell.content with
      | CellContent.PossibleNumbers set =>
          if set.len = 1 then
            let n := set.as_vec_u8.headD 0
            some ((k, { cell with content := CellContent.Number n }) :: t, cell.line_column, n)
          else
            (singleGo t).map (fun r => ((k, cell) :: r.1, r.2))
      | _ => (singleGo t).map (fun r => ((k, cell) :: r.1, r.2))

/-- `Solver::solve_single_possible_number`. -/
def solve_single_possible_number (s : Solver) : RuleOut :=
  match singleGo s.grid.hashmap_cells with
  | some (cells, lc, n) =>
      ⟨SolvingAction.SinglePossibleNumber lc n,
       { s with grid := { s.grid with hashmap_cells := cells } }, []⟩
  | none => ⟨SolvingAction.NoAction, s, []⟩

/-- `zone_hash_map` of `Solver::solve_numbers_in_zone`: digits already
finalized in each zone. -/
def zonePlacedSets (g : Grid) : List (Char × Simple09Set) :=
  g.hashmap_zones.map (fun p =>
    (p.1, p.2.set_line_column.foldl (fun acc lc =>
        match g.get_cell lc with
        | some cell =>
            match cell.content with
            | CellContent.Number n => acc.insert n
            | _ => acc
        | none => acc) Simple09Set.empty))

/-- Loop of `Solver::solve_numbers_in_zone` over `values_mut()`: first cell
whose candidates meet its zone's placed digits loses those digits in place. -/
def inZoneGo (zmap : List (Char × Simple09Set)) :
    List (LineColumn × Cell) → Option (List (LineColumn × Cell) × LineColumn × Char × List Nat)
  | [] => none
  | (k, cell) :: t =>
      match cell.content with
      | CellContent.PossibleNumbers cset =>
          let placed := (alookup zmap cell.c_zone).getD Simple09Set.empty
          let inter := placed.intersection cset
          if inter.is_empty then
            (inZoneGo zmap t).map (fun r => ((k, cell) :: r.1, r.2))
          else
            let vec_n := inter.as_vec_u8
            some ((k, { cell with content := CellContent.PossibleNumbers (cset.removeAll vec_n) }) :: t,
                  cell.line_column, cell.c_zone, vec_n)
      | _ => (inZoneGo zmap t).map (fun r => ((k, cell) :: r.1, r.2))

/-- `Solver::solve_numbers_in_zone`. -/
def solve_numbers_in_zone (s : Solver) : RuleOut :=
  match inZoneGo (zonePlacedSets s.grid) s.grid.hashmap_cells with
  | some (cells, lc, c_zone, vec_n) =>
      ⟨SolvingAction.NumbersInZone lc c_zone vec_n,
       { s with grid := { s.grid with hashmap_cells := cells } }, []⟩
  | none => ⟨SolvingAction.NoAction, s, []⟩

/-- The per-digit bookkeeping of `Solver::solve_only_number_in_zone`. -/
inductive OnlyNumber where
  | OnlyLineColumn (lc : LineColumn)
  | ManyLineColumns
deriving DecidableEq

/-- `HashMap::entry` update of `solve_only_number_in_zone`: an occupied digit
becomes `ManyLineColumns`, a vacant digit records its (so far only) cell. -/
def onlyInsert (m : List (Nat × OnlyNumber)) (n : Nat) (lc : LineColumn) :
    List (Nat × OnlyNumber) :=
  match alookup m n with
  | some _ => areplace m n OnlyNumber.ManyLineColumns
  | none => m ++ [(n, OnlyNumber.OnlyLineColumn lc)]

/-- Per-zone digit map of `solve_only_number_in_zone` (first phase). -/
def zoneOnlyMap (g : Grid) (members : List LineColumn) : List (Nat × OnlyNumber) :=
  members.foldl (fun m lc =>
    match g.get_cell lc with
    | some cell =>
        match cell.content with
        | CellContent.PossibleNumbers set =>
            set.as_vec_u8.foldl (fun m' n => onlyInsert m' n lc) m
        | _ => m
    | none => m) []

/-- Second phase of `solve_only_number_in_zone`: first digit with a unique
candidate cell in the map. -/
def findOnlyDigit : List (Nat × OnlyNumber) → Option (Nat × LineColumn)
  | [] => none
  | (n, OnlyNumber.OnlyLineColumn lc) :: _ => some (n, lc)
  | _ :: t => findOnlyDigit t

/-- Second phase of `solve_only_number_in_zone` over all zones. -/
def findZoneOnly : List (Char × List (Nat × OnlyNumber)) → Option (Char × Nat × LineColumn)
  | [] => none
  | (c_zone, m) :: t =>
      match findOnlyDigit m with
      | some (n, lc) => some (c_zone, n, lc)
      | none => findZoneOnly t

/-- `Solver::solve_only_number_in_zone`. -/
def solve_only_number_in_zone (s : Solver) : RuleOut :=
  let vecZones := s.grid.hashmap_zones.map
    (fun p => (p.1, zoneOnlyMap s.grid p.2.set_line_column))
  match findZoneOnly vecZones with
  | some (c_zone, n, lc) =>
      ⟨SolvingAction.OnlyNumberInZone c_zone lc n,
       { s with grid := s.grid.setCellContent lc (CellContent.Number n) }, []⟩
  | none => ⟨SolvingAction.NoAction, s, []⟩

/-- `vec_line_columns_possible_numbers` of `Solver::solve_numbers_neighboring`. -/
def possibleCellsVec (cells : List (LineColumn × Cell)) : List (LineColumn × Simple09Set) :=
  cells.filterMap (fun p =>
    match p.2.content with
    | CellContent.PossibleNumbers set => some (p.2.line_column, set)
    | _ => none)

/-- Digits finalized in the neighbours of a position
(`neighboring_simple_09_set` of `solve_numbers_neighboring`). -/
def neighboringNumbers (g : Grid) (lc : LineColumn) : Simple09Set :=
  (neighboringLineColumns lc g.min_line_column g.max_line_column).foldl
    (fun acc nlc =>
      match g.get_cell nlc with
      | some ncell =>
          match ncell.content with
          | CellContent.Number n => acc.insert n
          | _ => acc
      | none => acc) Simple09Set.empty

/-- Scan of `solve_numbers_neighboring`: first listed cell whose candidates
meet its neighbours' digits; returns the key, the action position (the
re-fetched cell's own `line_column`), the shrunk set and the removed digits. -/
def neighborScan (g : Grid) :
    List (LineColumn × Simple09Set) → Option (LineColumn × LineColumn × Simple09Set × List Nat)
  | [] => none
  | (lc, cset) :: t =>
      let inter := cset.intersection (neighboringNumbers g lc)
      if inter.is_empty then neighborScan g t
      else
        let vec_n := inter.as_vec_u8
        let cell := (g.get_cell lc).getD Cell.default
        some (lc, cell.line_column, cset.removeAll vec_n, vec_n)

/-- `Solver::solve_numbers_neighboring`. -/
def solve_numbers_neighboring (s : Solver) : RuleOut :=
  match neighborScan s.grid (possibleCellsVec s.grid.hashmap_cells) with
  | some (lc, action_lc, nset, vec_n) =>
      ⟨SolvingAction.NumbersNeighboring action_lc vec_n,
       { s with grid := s.grid.setCellContent lc (CellContent.PossibleNumbers nset) }, []⟩
  | none => ⟨SolvingAction.NoAction, s, []⟩

/-- `HashMap::insert` on an association list (replace or append). -/
def aupdate {α β : Type} [DecidableEq α] (l : List (α × β)) (k : α) (v : β) :
    List (α × β) :=
  match alookup l k with
  | some _ => areplace l k v
  | none => l ++ [(k, v)]

/-- `hash_map_line_column` of `solve_dual_values_pair` and
`solve_try_and_see`: the cells whose candidate set has exactly two members. -/
def pairCellsMap (cells : List (LineColumn × Cell)) : List (LineColumn × Simple09Set) :=
  cells.foldl (fun m p =>
    match p.2.content with
    | CellContent.PossibleNumbers set =>
        if set.len = 2 then aupdate m p.1 set else m
    | _ => m) []

/-- `vec_pairs` of `solve_dual_values_pair`: relative position of the pair
partner `b`, and the relative positions of the affected cells `c`. -/
def vec_pairs : List ((Int × Int) × List (Int × Int)) :=
  [((0, 1), [(-1, 0), (-1, 1), (1, 0), (1, 1)]),
   ((1, -1), [(0, -1), (1, 0)]),
   ((1, 0), [(0, -1), (0, 1), (1, -1), (1, 1)]),
   ((1, 1), [(0, 1), (1, 0)])]

/-- Innermost loop of `solve_dual_values_pair`: first affected cell `c`
whose candidates meet the pair's values. -/
def dualScanRelC (g : Grid) (lcA : LineColumn) (setA : Simple09Set) :
    List (Int × Int) → Option (LineColumn × Simple09Set × List Nat)
  | [] => none
  | rc :: t =>
      let lcC := lcA + LineColumn.new rc.1 rc.2
      match g.get_cell lcC with
      | some cellC =>
          match cellC.content with
          | CellContent.PossibleNumbers setC =>
              let inter := setC.intersection setA
              if inter.is_empty then dualScanRelC g lcA setA t
              else some (lcC, setC.removeAll inter.as_vec_u8, inter.as_vec_u8)
          | _ => dualScanRelC g lcA setA t
      | none => dualScanRelC g lcA setA t

/-- Middle loop of `solve_dual_values_pair`: the four relative partners. -/
def dualScanPairs (g : Grid) (pairMap : List (LineColumn × Simple09Set))
    (lcA : LineColumn) (setA : Simple09Set) :
    List ((Int × Int) × List (Int × Int)) →
      Option (LineColumn × LineColumn × Simple09Set × List Nat)
  | [] => none
  | (rb, rcs) :: t =>
      let lcB := lcA + LineColumn.new rb.1 rb.2
      match alookup pairMap lcB with
      | some setB =>
          if setA = setB then
            match dualScanRelC g lcA setA rcs with
            | some (lcC, nset, vec) => some (lcB, lcC, nset, vec)
            | none => dualScanPairs g pairMap lcA setA t
          else dualScanPairs g pairMap lcA setA t
      | none => dualScanPairs g pairMap lcA setA t

/-- Outer loop of `solve_dual_values_pair` over the pair cells. -/
def dualScanA (g : Grid) (pairMap : List (LineColumn × Simple09Set)) :
    List (LineColumn × Simple09Set) →
      Option (LineColumn × LineColumn × LineColumn × Simple09Set × List Nat)
  | [] => none
  | (lcA, setA) :: t =>
      match dualScanPairs g pairMap lcA setA vec_pairs with
      | some (lcB, lcC, nset, vec) => some (lcA, lcB, lcC, nset, vec)
      | none => dualScanA g pairMap t

/-- `Solver::solve_dual_values_pair`. -/
def solve_dual_values_pair (s : Solver) : RuleOut :=
  let pairMap := pairCellsMap s.grid.hashmap_cells
  match dualScanA s.grid pairMap pairMap with
  | some (lcA, lcB, lcC, nset, vec) =>
      ⟨SolvingAction.DualValuesPair lcA lcB lcC vec,
       { s with grid := s.grid.setCellContent lcC (CellContent.PossibleNumbers nset) }, []⟩
  | none => ⟨SolvingAction.NoAction, s, []⟩

/-! ## `solver.rs` — step and solve loop -/

instance {e a : Type} [DecidableEq e] [DecidableEq a] : DecidableEq (Except e a) :=
  fun x y =>
    match x, y with
    | Except.error u, Except.error v =>
        if h : u = v then Decidable.isTrue (by rw [h])
        else Decidable.isFalse (by intro hh; cases hh; exact h rfl)
    | Except.error _, Except.ok _ => Decidable.isFalse (by intro hh; cases hh)
    | Except.ok _, Except.error _ => Decidable.isFalse (by intro hh; cases hh)
    | Except.ok u, Except.ok v =>
        if h : u = v then Decidable.isTrue (by rw [h])
        else Decidable.isFalse (by intro hh; cases hh; exact h rfl)

/-- Result of `Solver::solve_step`. -/
structure StepOut where
  res : Except SolvingError SolvingAction
  solver : Solver
  tsLog : List Int
deriving DecidableEq

/-- Result of `Solver::solve`: the `Result<bool, SolvingError>`, the solver,
the actions reported to the per-step callbacks, and the ghost attempt log. -/
structure SolveOut where
  res : Except SolvingError Bool
  solver : Solver
  actions : List SolvingAction
  tsLog : List Int
deriving DecidableEq

/-- The `for (function, difficulty) in vec_of_functions` loop of
`Solver::solve_step`: the first rule returning something other than
`NoAction` ends the step and raises the difficulty to at least the rule's
level; a rule returning `NoAction` leaves the solver to the next rule. -/
def applyRules : Solver → List ((Solver → RuleOut) × DifficultyLevel) → RuleOut
  | s, [] => ⟨SolvingAction.NoAction, s, []⟩
  | s, (f, d) :: rest =>
      let out := f s
      match out.action with
      | SolvingAction.NoAction =>
          let next := applyRules out.solver rest
          ⟨next.action, next.solver, out.tsLog ++ next.tsLog⟩
      | _ =>
          ⟨out.action,
           { out.solver with
             difficulty_level := out.solver.difficulty_level.dmax d },
           out.tsLog⟩

/-- The first five entries of `vec_of_functions` (the non-recursive rules). -/
def vec_of_functions_head : List ((Solver → RuleOut) × DifficultyLevel) :=
  [(solve_single_possible_number, DifficultyLevel.Easy),
   (solve_numbers_in_zone, DifficultyLevel.Easy),
   (solve_only_number_in_zone, DifficultyLevel.Easy),
   (solve_numbers_neighboring, DifficultyLevel.Medium),
   (solve_dual_values_pair, DifficultyLevel.Hard)]

/-- Inner attempt loop of `solve_try_and_see` over the two candidates of one
cell, parameterized by the recursive solve applied to the speculative clone
(`new_solver.solve(&[])` in the source): clone the grid, force the
candidate, build the sub-solver (`Solver::new` then the two field overrides
of the source) and solve it.  A failing clone forces the other candidate
(`TryAndFail`), a solved clone forces the tried one (`TryAndSolve`).
`d` is the ghost record: the recursion level of the attempting solver when
`solve_try_and_see` was entered. -/
def tryDigitsWith (solveFn : Solver → SolveOut) (d : Int) (s1 : Solver) (lc : LineColumn)
    (vec_n : List Nat) : List Nat → Option (SolvingAction × Solver) × List Int
  | [] => (none, [])
  | n :: ns =>
      let new_grid := s1.grid.setCellContent lc (CellContent.Number n)
      let new_solver : Solver :=
        { grid := new_grid
          init_cell_contents := false
          difficulty_level := DifficultyLevel.Unknown
          max_try_and_see_recursion_level := s1.max_try_and_see_recursion_level
          try_and_see_recursion_level := s1.try_and_see_recursion_level }
      let sub := solveFn new_solver
      match sub.res with
      | Except.error _ =>
          let autre_n := if vec_n.headD 0 = n then vec_n.getD 1 0 else vec_n.headD 0
          (some (SolvingAction.TryAndFail lc n autre_n,
                 { s1 with grid := s1.grid.setCellContent lc (CellContent.Number autre_n) }),
           d :: sub.tsLog)
      | Except.ok solved =>
          if solved then
            let autre_n := if vec_n.headD 0 = n then vec_n.getD 1 0 else vec_n.headD 0
            (some (SolvingAction.TryAndSolve lc n autre_n,
                   { s1 with grid := s1.grid.setCellContent lc (CellContent.Number n) }),
             d :: sub.tsLog)
          else
            let r := tryDigitsWith solveFn d s1 lc vec_n ns
            (r.1, (d :: sub.tsLog) ++ r.2)

/-- Outer attempt loop of `solve_try_and_see` over the two-candidate cells. -/
def tryCellsWith (solveFn : Solver → SolveOut) (d : Int) (s1 : Solver) :
    List (LineColumn × Simple09Set) → Option (SolvingAction × Solver) × List Int
  | [] => (none, [])
  | (lc, set) :: rest =>
      let vec_n := set.as_vec_u8
      let r := tryDigitsWith solveFn d s1 lc vec_n vec_n
      match r.1 with
      | some p => (some p, r.2)
      | none =>
          let r2 := tryCellsWith solveFn d s1 rest
          (r2.1, r.2 ++ r2.2)

/-- `Solver::solve_try_and_see`, parameterized by the recursive solve.
Nothing is attempted at or above the solver's maximum recursion level.
Otherwise the recursion level is incremented and every two-candidate cell
is tried; when no attempt concludes, the level is decremented again (on a
concluding attempt the early `return` of the source skips the decrement). -/
def solve_try_and_seeWith (solveFn : Solver → SolveOut) (s : Solver) : RuleOut :=
  if s.max_try_and_see_recursion_level ≤ s.try_and_see_recursion_level then
    ⟨SolvingAction.NoAction, s, []⟩
  else
    let pairMap := pairCellsMap s.grid.hashmap_cells
    let s1 := { s with try_and_see_recursion_level := s.try_and_see_recursion_level + 1 }
    let r := tryCellsWith solveFn s.try_and_see_recursion_level s1 pairMap
    match r.1 with
    | some p => ⟨p.1, p.2, r.2⟩
    | none =>
        ⟨SolvingAction.NoAction,
         { s1 with try_and_see_recursion_level := s1.try_and_see_recursion_level - 1 },
         r.2⟩

/-- The rule phase of `Solver::solve_step` (the `for (function, difficulty)
in vec_of_functions` loop): the first five rules via `applyRules`, then the
recursive `solve_try_and_see`. -/
def rulesPhaseWith (solveFn : Solver → SolveOut) (s : Solver) : StepOut :=
  let o5 := applyRules s vec_of_functions_head
  match o5.action with
  | SolvingAction.NoAction =>
      let o6 := solve_try_and_seeWith solveFn o5.solver
      match o6.action with
      | SolvingAction.NoAction =>
          ⟨Except.ok SolvingAction.NoAction, o6.solver, o5.tsLog ++ o6.tsLog⟩
      | _ =>
          ⟨Except.ok o6.action,
           { o6.solver with
             difficulty_level := o6.solver.difficulty_level.dmax DifficultyLevel.VeryHard },
           o5.tsLog ++ o6.tsLog⟩
  | _ => ⟨Except.ok o5.action, o5.solver, o5.tsLog⟩

/-- `Solver::solve_step`, parameterized by the recursive solve: consistency
check, one-time candidate initialization, solved test, then the rules in
priority order. -/
def solveStepWith (solveFn : Solver → SolveOut) (s : Solver) : StepOut :=
  match s.check with
  | Except.error e => ⟨Except.error e, s, []⟩
  | Except.ok _ =>
      if s.init_cell_contents = false then
        let out := solve_step_possible_numbers { s with init_cell_contents := true }
        ⟨Except.ok out.action, out.solver, out.tsLog⟩
      else if s.is_solved then
        ⟨Except.ok SolvingAction.Solved, s, []⟩
      else
        rulesPhaseWith solveFn s

/-- The `while true` loop of `Solver::solve`, driven by fuel (structural on
the fuel so that runs evaluate).  Each step receives one unit less fuel;
speculative clones are solved by `solve(&[])`, i.e. the loop restarted on
the clone with the option-less maximum recursion level (the default).  The
actions handed to the per-step callbacks are collected in `actions`. -/
def solveLoop : Nat → Solver → SolveOut
  | 0, s => ⟨Except.error SolvingError.BadImplementation, s, [], []⟩
  | fuel + 1, s =>
      let st := solveStepWith
        (fun s2 => solveLoop fuel
          { s2 with max_try_and_see_recursion_level :=
              get_max_try_and_see_recursion_level [] DEFAULT_MAX_TRY_AND_SEE_RECURSION_LEVEL }) s
      match st.res with
      | Except.error e => ⟨Except.error e, st.solver, [], st.tsLog⟩
      | Except.ok action =>
          match action with
          | SolvingAction.Solved => ⟨Except.ok true, st.solver, [action], st.tsLog⟩
          | SolvingAction.NoAction => ⟨Except.ok false, st.solver, [action], st.tsLog⟩
          | _ =>
              let rest := solveLoop fuel st.solver
              ⟨rest.res, rest.solver, action :: rest.actions, st.tsLog ++ rest.tsLog⟩

/-- `Solver::solve`: set `max_try_and_see_recursion_level` from the options
(default `DEFAULT_MAX_TRY_AND_SEE_RECURSION_LEVEL`), then loop. -/
def solve (fuel : Nat) (options : List SolvingOption) (s : Solver) : SolveOut :=
  solveLoop fuel
    { s with max_try_and_see_recursion_level :=
        get_max_try_and_see_recursion_level options DEFAULT_MAX_TRY_AND_SEE_RECURSION_LEVEL }

/-- `Solver::solve_step` with fuel for the speculative solves. -/
def solveStep (fuel : Nat) (s : Solver) : StepOut :=
  solveStepWith (fun s2 => solve fuel [] s2) s

/-- `Solver::solve_try_and_see` with fuel for the speculative solves. -/
def solve_try_and_see (fuel : Nat) (s : Solver) : RuleOut :=
  solve_try_and_seeWith (fun s2 => solve fuel [] s2) s

/-- The rule phase of `solve_step` with fuel for the speculative solves. -/
def rulesPhase (fuel : Nat) (s : Solver) : StepOut :=
  rulesPhaseWith (fun s2 => solve fuel [] s2) s

/-- `tryCellsWith` with fuel for the speculative solves. -/
def tryCells (fuel : Nat) (d : Int) (s1 : Solver)
    (entries : List (LineColumn × Simple09Set)) :
    Option (SolvingAction × Solver) × List Int :=
  tryCellsWith (fun s2 => solve fuel [] s2) d s1 entries

/-- `tryDigitsWith` with fuel for the speculative solves. -/
def tryDigits (fuel : Nat) (d : Int) (s1 : Solver) (lc : LineColumn) (vec_n : List Nat)
    (l : List Nat) : Option (SolvingAction × Solver) × List Int :=
  tryDigitsWith (fun s2 => solve fuel [] s2) d s1 lc vec_n l

/-- The full `vec_of_functions` of `Solver::solve_step`. -/
def vec_of_functions (fuel : Nat) : List ((Solver → RuleOut) × DifficultyLevel) :=
  vec_of_functions_head ++ [(solve_try_and_see fuel, DifficultyLevel.VeryHard)]

/-! ## Remaining definitions used by the claims -/

/-- The loop of `Simple09Set::difference` on the by-value `mut self` copy:
for every digit 0..=9 contained in the copy but not in `other_set`, remove it
from the copy.  This is the value the function computes and then discards. -/
def Simple09Set.difference_local (s other_set : Simple09Set) : Simple09Set :=
  (List.range 10).foldl
    (fun acc digit =>
      if acc.contains digit && !(other_set.contains digit) then acc.remove digit else acc)
    s

/-- `Simple09Set::difference` as seen by the caller: the method receives
`self` by value (`mut self`, `Simple09Set` is `Copy`), mutates only that
local copy (`difference_local`) and returns `()`; the first component is the
caller's binding after the call, which by Rust's by-value semantics is the
unchanged set. -/
def Simple09Set.difference (s other_set : Simple09Set) : Simple09Set × Unit :=
  let _local := s.difference_local other_set
  (s, ())

/-- Difficulty tag of an action: the difficulty level of the rule that
produced it (`none` for `Solved`, `InitPossibleNumbers` and `NoAction`,
which tag nothing). -/
def actionTag : SolvingAction → Option DifficultyLevel
  | SolvingAction.Solved => none
  | SolvingAction.InitPossibleNumbers => none
  | SolvingAction.NoAction => none
  | SolvingAction.SinglePossibleNumber _ _ => some DifficultyLevel.Easy
  | SolvingAction.NumbersInZone _ _ _ => some DifficultyLevel.Easy
  | SolvingAction.OnlyNumberInZone _ _ _ => some DifficultyLevel.Easy
  | SolvingAction.NumbersNeighboring _ _ => some DifficultyLevel.Medium
  | SolvingAction.DualValuesPair _ _ _ _ => some DifficultyLevel.Hard
  | SolvingAction.TryAndSolve _ _ _ => some DifficultyLevel.VeryHard
  | SolvingAction.TryAndFail _ _ _ => some DifficultyLevel.VeryHard

/-- Fold a difficulty through the tag of one action. -/
def tagFold (d : DifficultyLevel) (a : SolvingAction) : DifficultyLevel :=
  match actionTag a with
  | none => d
  | some t => d.dmax t

/-- Structural well-formedness of the cell map, guaranteed by `HashMap` in
the source: no duplicate keys, and every cell records its own key as its
`line_column`. -/
def GridWF (g : Grid) : Prop :=
  (g.hashmap_cells.map Prod.fst).Nodup ∧
    ∀ p ∈ g.hashmap_cells, p.2.line_column = p.1

instance (g : Grid) : Decidable (GridWF g) := by
  unfold GridWF
  infer_instance

/-- One-step evolution order on the content of one cell position: absent
stays absent, an `Undefined` cell may become anything, a finalized cell
keeps its digit, a candidate cell may only shrink or become finalized. -/
def contentStep : Option CellContent → Option CellContent → Prop
  | none, none => True
  | some CellContent.Undefined, some _ => True
  | some (CellContent.Number n), some (CellContent.Number m) => m = n
  | some (CellContent.PossibleNumbers p), some (CellContent.PossibleNumbers q) =>
      ∀ d, q.contains d = true → p.contains d = true
  | some (CellContent.PossibleNumbers _), some (CellContent.Number _) => True
  | _, _ => False

/-- Evolution order between two grids: every position evolves by
`contentStep`. -/
def gridLe (g g' : Grid) : Prop :=
  ∀ lc, contentStep ((g.get_cell lc).map Cell.content) ((g'.get_cell lc).map Cell.content)

/-- Iterated `solve_step`, with an arbitrary fuel for each call. -/
def stepIterF (fuels : Nat → Nat) (s : Solver) : Nat → Solver
  | 0 => s
  | n + 1 => (solveStep (fuels n) (stepIterF fuels s n)).solver

/-- The digits (at most 9) finalized in a list of zone members, in member
order — the digits `check_zone_numbers` actually tracks (its bit set cannot
record digits above 9). -/
def zoneNumbers9 (g : Grid) (members : List LineColumn) : List Nat :=
  members.filterMap (fun lc =>
    match g.get_cell lc with
    | some cell =>
        match cell.content with
        | CellContent.Number n => if n ≤ 9 then some n else none
        | _ => none
    | none => none)

/-- Common shape of the conclusions about a rule's rewritten cell list. -/
def listEffect (P : LineColumn × Cell → Prop) (l l' : List (LineColumn × Cell)) : Prop :=
  l'.map Prod.fst = l.map Prod.fst ∧
    (∀ p ∈ l', p ∈ l ∨ P p) ∧
    (∀ k, contentStep ((alookup l k).map Cell.content) ((alookup l' k).map Cell.content))

/-- A rule preserves well-formedness and only lets cell contents evolve
along `contentStep`. -/
def rulePres (f : Solver → RuleOut) : Prop :=
  ∀ s, GridWF s.grid → gridLe s.grid ((f s).solver.grid) ∧ GridWF ((f s).solver.grid)

/-- Every `OnlyLineColumn` entry of a digit map points at a candidate cell. -/
def GoodOnly (g : Grid) (m : List (Nat × OnlyNumber)) : Prop :=
  ∀ q ∈ m, ∀ lc, q.2 = OnlyNumber.OnlyLineColumn lc →
    ∃ cell set, g.get_cell lc = some cell ∧ cell.content = CellContent.PossibleNumbers set

/-! ### Concrete instances used as witnesses and counterexamples -/

/-- The one-cell grid parsed from `"a1"`. -/
def gOneCell : Grid :=
  Grid.default.add_cell (0, 0) 'a' (some 1)

/-- Counterexample state for the post-step invariant: `(0,0)` in zone `a`
holds `1`, its neighbour `(0,1)` in zone `b` has the single candidate `1`
(mask 2), candidates initialized. -/
def gAfterStep : Grid :=
  { min_line_column := ⟨0, 0⟩
    max_line_column := ⟨0, 1⟩
    hashmap_zones := [('a', ⟨'a', [⟨0, 0⟩]⟩), ('b', ⟨'b', [⟨0, 1⟩]⟩)]
    hashmap_cells := [(⟨0, 0⟩, ⟨'a', ⟨0, 0⟩, CellContent.Number 1⟩),
                      (⟨0, 1⟩, ⟨'b', ⟨0, 1⟩, CellContent.PossibleNumbers ⟨2⟩⟩)] }

/-- The counterexample solver built on `gAfterStep`. -/
def sAfterStep : Solver :=
  { grid := gAfterStep
    init_cell_contents := true
    difficulty_level := DifficultyLevel.Unknown
    max_try_and_see_recursion_level := 3
    try_and_see_recursion_level := 0 }

/-- Two 8-neighbouring cells pre-set to 3, each alone in its zone: the
digit 3 also exceeds both zone sizes. -/
def gNeighbors3TinyZones : Grid :=
  (Grid.default.add_cell (0, 0) 'a' (some 3)).add_cell (0, 1) 'b' (some 3)

/-- Two 8-neighbouring cells pre-set to 3 inside two three-cell zones
(every zone fits its digits). -/
def gNeighbors3 : Grid :=
  (((((Grid.default.add_cell (0, 0) 'a' (some 3)).add_cell (0, 1) 'b'
    (some 3)).add_cell (0, 2) 'b' none).add_cell (1, 0) 'a' none).add_cell
    (1, 1) 'a' none).add_cell (1, 2) 'b' none

/-- The example grid of the library documentation: zones a/b/c with four
pre-set digits. -/
def gExample : Grid :=
  match Grid.fromStr "a1 b  b2\nb4 b  b\nc  c  c2" with
  | Except.ok g => g
  | Except.error _ => Grid.default

/-- The fully solved grid of the `is_solved` test. -/
def gSolved : Grid :=
  match Grid.fromStr "a1 b3 b2\nb4 b5 b1\nc1 c3 c2" with
  | Except.ok g => g
  | Except.error _ => Grid.default

/-- A solver already past initialization on the solved grid. -/
def sSolved : Solver :=
  { Solver.new gSolved with init_cell_contents := true }

/-- Two two-cell zones far apart: every propagation rule stalls, so
solving must speculate, and nested speculation occurs. -/
def gTwoDominoes : Grid :=
  (((Grid.default.add_cell (0, 0) 'a' none).add_cell (0, 1) 'a' none).add_cell
    (5, 5) 'b' none).add_cell (5, 6) 'b' none

/-- Monotonic-shrinkage witness state: `(0,0)` holds 1, zone `b` is the
pair `(0,1)`, `(1,1)`, both with candidates `{1,2}` (mask 6). -/
def sShrink : Solver :=
  { grid :=
      { min_line_column := ⟨0, 0⟩
        max_line_column := ⟨1, 1⟩
        hashmap_zones := [('a', ⟨'a', [⟨0, 0⟩]⟩), ('b', ⟨'b', [⟨0, 1⟩, ⟨1, 1⟩]⟩)]
        hashmap_cells := [(⟨0, 0⟩, ⟨'a', ⟨0, 0⟩, CellContent.Number 1⟩),
                          (⟨0, 1⟩, ⟨'b', ⟨0, 1⟩, CellContent.PossibleNumbers ⟨6⟩⟩),
                          (⟨1, 1⟩, ⟨'b', ⟨1, 1⟩, CellContent.PossibleNumbers ⟨6⟩⟩)] }
    init_cell_contents := true
    difficulty_level := DifficultyLevel.Unknown
    max_try_and_see_recursion_level := 3
    try_and_see_recursion_level := 0 }

/-- Does a step result carry the same-neighbour-digit violation? -/
def stepIsNeighboringError (st : StepOut) : Bool :=
  match st.res with
  | Except.error (SolvingError.NeighboringWithSameNumber _ _ _) => true
  | _ => false

/-- The facts about one `vec_of_functions` entry used by the step
theorems: a rule that reports `NoAction` did not mutate the solver, a rule
that fired reports an action tagged with the rule's difficulty, no rule
touches the difficulty itself, and no rule fabricates the `Solved` or
`InitPossibleNumbers` actions. -/
def ruleOk (q : (Solver → RuleOut) × DifficultyLevel) : Prop :=
  (∀ x, (q.1 x).action = SolvingAction.NoAction → (q.1 x).solver = x) ∧
  (∀ x, (q.1 x).action ≠ SolvingAction.NoAction →
    actionTag ((q.1 x).action) = some q.2) ∧
  (∀ x, (q.1 x).solver.difficulty_level = x.difficulty_level) ∧
  (∀ x, (q.1 x).action ≠ SolvingAction.Solved ∧
    (q.1 x).action ≠ SolvingAction.InitPossibleNumbers)

/-! ### Basic facts about `Simple09Set` -/

theorem digit_mask_bit_of_le9 {d : Nat} (h : d ≤ 9) :
    digit_mask_bit d = 2 ^ d := by
  interval_cases d <;> rfl

theorem digit_mask_bit_of_gt9 {d : Nat} (h : 9 < d) :
    digit_mask_bit d = 0 := by
  match d, h with
  | (n + 10), _ => rfl

theorem Simple09Set.contains_of_gt9 (s : Simple09Set) {d : Nat} (h : 9 < d) :
    s.contains d = false := by
  simp [Simple09Set.contains, digit_mask_bit_of_gt9 h]

theorem Simple09Set.contains_iff_testBit (s : Simple09Set) {d : Nat} (h : d ≤ 9) :
    s.contains d = s.mask.testBit d := by
  simp only [Simple09Set.contains, digit_mask_bit_of_le9 h, Nat.and_two_pow]
  rcases hb : s.mask.testBit d
  · simp [hb]
  · simp only [hb, Bool.toNat_true, one_mul, bne_iff_ne, ne_eq]
    simp [pow_eq_zero_iff]

theorem Simple09Set.contains_empty (d : Nat) :
    Simple09Set.empty.contains d = false := by
  rcases le_or_lt d 9 with h | h
  · simp [Simple09Set.contains_iff_testBit _ h, Simple09Set.empty]
  · exact Simple09Set.contains_of_gt9 _ h

theorem Simple09Set.contains_insert (s : Simple09Set) (n d : Nat) :
    (s.insert n).contains d = (s.contains d || (decide (d = n) && decide (d ≤ 9))) := by
  rcases le_or_lt d 9 with h | h
  · rcases le_or_lt n 9 with hn | hn
    · simp only [Simple09Set.insert, Simple09Set.contains_iff_testBit _ h,
        Simple09Set.contains_iff_testBit _ h, Nat.testBit_or]
      by_cases hdn : d = n
      · subst hdn
        simp [digit_mask_bit_of_le9 h, Nat.testBit_two_pow_self, h]
      · simp [digit_mask_bit_of_le9 hn, Nat.testBit_two_pow_of_ne (fun he => hdn he.symm), hdn]
    · have hdn : d ≠ n := by omega
      simp [Simple09Set.insert, digit_mask_bit_of_gt9 hn,
        Simple09Set.contains, hdn]
  · have hc := Simple09Set.contains_of_gt9 (s.insert n) h
    have hc' := Simple09Set.contains_of_gt9 s h
    simp [hc, hc']
    omega

theorem testBit_1023 (d : Nat) : Nat.testBit 1023 d = decide (d < 10) := by
  have h : (1023 : Nat) = 2 ^ 10 - 1 := by norm_num
  rw [h, Nat.testBit_two_pow_sub_one]

theorem digit_mask_bit_testBit (n d : Nat) (h : d ≤ 9) :
    (digit_mask_bit n).testBit d = (decide (d = n) && decide (d ≤ 9)) := by
  rcases le_or_lt n 9 with hn | hn
  · rw [digit_mask_bit_of_le9 hn]
    by_cases hdn : d = n
    · subst hdn
      simp [Nat.testBit_two_pow_self, h]
    · simp [Nat.testBit_two_pow_of_ne (fun he => hdn he.symm), hdn]
  · rw [digit_mask_bit_of_gt9 hn]
    have hdn : d ≠ n := by omega
    simp [hdn]

theorem Simple09Set.contains_remove (s : Simple09Set) (n d : Nat) :
    (s.remove n).contains d = (s.contains d && !(decide (d = n) && decide (d ≤ 9))) := by
  rcases le_or_lt d 9 with h | h
  · rw [Simple09Set.contains_iff_testBit (s.remove n) h, Simple09Set.contains_iff_testBit s h]
    show (s.mask &&& not_digit_mask_bit n).testBit d = _
    rw [Nat.testBit_and, not_digit_mask_bit, Nat.testBit_xor, testBit_1023,
      digit_mask_bit_testBit n d h]
    have hd10 : decide (d < 10) = true := by simp; omega
    rw [hd10]
    rcases hx : (decide (d = n) && decide (d ≤ 9)) <;> simp [hx]
  · have hc := Simple09Set.contains_of_gt9 (s.remove n) h
    have hc' := Simple09Set.contains_of_gt9 s h
    simp [hc, hc']

theorem Simple09Set.contains_intersection (s t : Simple09Set) (d : Nat) :
    (s.intersection t).contains d = (s.contains d && t.contains d) := by
  rcases le_or_lt d 9 with h | h
  · simp [Simple09Set.intersection, Simple09Set.contains_iff_testBit _ h, Nat.testBit_and]
  · simp [Simple09Set.contains_of_gt9 _ h]

theorem Simple09Set.contains_removeAll (s : Simple09Set) (l : List Nat) (d : Nat) :
    (s.removeAll l).contains d = true → s.contains d = true := by
  induction l generalizing s with
  | nil => exact fun h => h
  | cons n t ih =>
    intro h
    have h2 := ih (s.remove n) h
    rw [Simple09Set.contains_remove] at h2
    rcases hx : s.contains d
    · rw [hx] at h2
      simp at h2
    · rfl

theorem Simple09Set.mem_as_vec_u8 (s : Simple09Set) (d : Nat) :
    d ∈ s.as_vec_u8 ↔ d < 10 ∧ s.contains d = true := by
  simp [Simple09Set.as_vec_u8, List.mem_filter, List.mem_range, and_comm]

/-! ### Association lists -/

theorem alookup_mem {α β : Type} [DecidableEq α] {l : List (α × β)} {k : α} {v : β}
    (h : alookup l k = some v) : (k, v) ∈ l := by
  induction l with
  | nil => simp [alookup] at h
  | cons p t ih =>
    rcases p with ⟨k', v'⟩
    by_cases hk : k' = k
    · subst hk
      simp [alookup] at h
      simp [h]
    · simp [alookup, hk] at h
      exact List.mem_cons_of_mem _ (ih h)

theorem alookup_of_mem_nodup {α β : Type} [DecidableEq α] {l : List (α × β)} {k : α} {v : β}
    (hnd : (l.map Prod.fst).Nodup) (h : (k, v) ∈ l) : alookup l k = some v := by
  induction l with
  | nil => simp at h
  | cons p t ih =>
    rcases p with ⟨k', v'⟩
    simp only [List.map_cons, List.nodup_cons] at hnd
    rcases List.mem_cons.mp h with h1 | h1
    · cases h1
      simp [alookup]
    · have hk : k' ≠ k := by
        intro he
        subst he
        exact hnd.1 (List.mem_map_of_mem Prod.fst h1)
      simp [alookup, hk]
      exact ih hnd.2 h1

theorem areplace_map_fst {α β : Type} [DecidableEq α] (l : List (α × β)) (k : α) (v : β) :
    ((areplace l k v).map Prod.fst) = l.map Prod.fst := by
  induction l with
  | nil => rfl
  | cons p t ih =>
    rcases p with ⟨k', v'⟩
    by_cases hk : k' = k <;> simp [areplace, hk, ih]

theorem alookup_areplace {α β : Type} [DecidableEq α] (l : List (α × β)) (k : α) (v : β)
    (k' : α) :
    alookup (areplace l k v) k' =
      if k' = k then (alookup l k).map (fun _ => v) else alookup l k' := by
  induction l with
  | nil => by_cases h : k' = k <;> simp [areplace, alookup, h]
  | cons p t ih =>
    rcases p with ⟨k0, v0⟩
    by_cases h0 : k0 = k
    · subst h0
      by_cases h1 : k' = k0
      · subst h1
        simp [areplace, alookup]
      · have h1' : ¬(k0 = k') := fun he => h1 he.symm
        simp [areplace, alookup, h1, h1']
    · by_cases h1 : k' = k
      · subst h1
        have h0' : ¬(k0 = k') := h0
        simp [areplace, alookup, h0, h0', ih]
      · by_cases h2 : k0 = k'
        · subst h2
          simp [areplace, alookup, h0, h1]
        · simp [areplace, alookup, h0, h1, h2, ih]

theorem mem_areplace {α β : Type} [DecidableEq α] {l : List (α × β)} {k : α} {v : β}
    {p : α × β} (h : p ∈ areplace l k v) : p ∈ l ∨ p = (k, v) := by
  induction l with
  | nil => simp [areplace] at h
  | cons q t ih =>
    rcases q with ⟨k0, v0⟩
    by_cases h0 : k0 = k
    · subst h0
      simp only [areplace, if_pos rfl] at h
      rcases List.mem_cons.mp h with h1 | h1
      · subst h1
        right
        rfl
      · left
        exact List.mem_cons_of_mem _ h1
    · simp only [areplace, if_neg h0] at h
      rcases List.mem_cons.mp h with h1 | h1
      · subst h1
        left
        exact List.mem_cons_self _ _
      · rcases ih h1 with h2 | h2
        · left
          exact List.mem_cons_of_mem _ h2
        · right
          exact h2

theorem alookup_map_value {α β γ : Type} [DecidableEq α] (f : β → γ) (l : List (α × β)) (k : α) :
    alookup (l.map (fun p => (p.1, f p.2))) k = (alookup l k).map f := by
  induction l with
  | nil => rfl
  | cons p t ih =>
    rcases p with ⟨k0, v0⟩
    by_cases h : k0 = k <;> simp [alookup, h, ih]

/-! ### `Grid.setCellContent` -/

theorem get_cell_setCellContent (g : Grid) (lc : LineColumn) (ct : CellContent)
    (lc' : LineColumn) :
    (g.setCellContent lc ct).get_cell lc' =
      if lc' = lc then (g.get_cell lc).map (fun c => { c with content := ct })
      else g.get_cell lc' := by
  unfold Grid.setCellContent
  rcases h : alookup g.hashmap_cells lc with _ | cell
  · by_cases h1 : lc' = lc
    · subst h1
      simp [Grid.get_cell, h]
    · simp [Grid.get_cell, h1]
  · show alookup (areplace g.hashmap_cells lc _) lc' = _
    rw [alookup_areplace]
    by_cases h1 : lc' = lc
    · subst h1
      simp [Grid.get_cell, h]
    · simp [Grid.get_cell, h1]

theorem setCellContent_map_fst (g : Grid) (lc : LineColumn) (ct : CellContent) :
    ((g.setCellContent lc ct).hashmap_cells.map Prod.fst) = g.hashmap_cells.map Prod.fst := by
  unfold Grid.setCellContent
  rcases h : alookup g.hashmap_cells lc with _ | cell
  · rfl
  · exact areplace_map_fst _ _ _

theorem setCellContent_zones (g : Grid) (lc : LineColumn) (ct : CellContent) :
    (g.setCellContent lc ct).hashmap_zones = g.hashmap_zones := by
  unfold Grid.setCellContent
  rcases h : alookup g.hashmap_cells lc with _ | cell <;> rfl

theorem setCellContent_bounds (g : Grid) (lc : LineColumn) (ct : CellContent) :
    (g.setCellContent lc ct).min_line_column = g.min_line_column ∧
      (g.setCellContent lc ct).max_line_column = g.max_line_column := by
  unfold Grid.setCellContent
  rcases h : alookup g.hashmap_cells lc with _ | cell <;> exact ⟨rfl, rfl⟩

theorem mem_setCellContent {g : Grid} {lc : LineColumn} {ct : CellContent}
    {p : LineColumn × Cell} (h : p ∈ (g.setCellContent lc ct).hashmap_cells) :
    p ∈ g.hashmap_cells ∨
      ∃ cell, alookup g.hashmap_cells lc = some cell ∧ p = (lc, { cell with content := ct }) := by
  unfold Grid.setCellContent at h
  rcases h2 : alookup g.hashmap_cells lc with _ | cell
  · rw [h2] at h
    exact Or.inl h
  · rw [h2] at h
    rcases mem_areplace h with h3 | h3
    · exact Or.inl h3
    · exact Or.inr ⟨cell, rfl, h3⟩

/-! ### The evolution order on cell contents -/

theorem contentStep_refl (c : Option CellContent) : contentStep c c := by
  rcases c with _ | c
  · trivial
  · rcases c with _ | n | p
    · trivial
    · rfl
    · intro d h
      exact h

theorem contentStep_trans {a b c : Option CellContent}
    (h1 : contentStep a b) (h2 : contentStep b c) : contentStep a c := by
  rcases b with _ | b
  · rcases a with _ | a
    · rcases c with _ | c
      · trivial
      · exact h2.elim
    · rcases a with _ | n | p <;> exact h1.elim
  · rcases b with _ | m | q
    · rcases a with _ | a
      · exact h1.elim
      · rcases a with _ | n | p
        · rcases c with _ | c
          · exact h2.elim
          · trivial
        · exact h1.elim
        · exact h1.elim
    · rcases a with _ | a
      · exact h1.elim
      · rcases a with _ | n | p
        · rcases c with _ | c
          · exact h2.elim
          · trivial
        · rcases c with _ | c
          · exact h2.elim
          · rcases c with _ | r | w
            · exact h2.elim
            · show r = n
              rw [(h2 : r = m), (h1 : m = n)]
            · exact h2.elim
        · rcases c with _ | c
          · exact h2.elim
          · rcases c with _ | r | w
            · exact h2.elim
            · trivial
            · exact h2.elim
    · rcases a with _ | a
      · exact h1.elim
      · rcases a with _ | n | p
        · rcases c with _ | c
          · exact h2.elim
          · trivial
        · exact h1.elim
        · rcases c with _ | c
          · exact h2.elim
          · rcases c with _ | r | w
            · exact h2.elim
            · trivial
            · exact fun d hd => h1 d (h2 d hd)

theorem gridLe_refl (g : Grid) : gridLe g g := fun _ => contentStep_refl _

theorem gridLe_trans {g1 g2 g3 : Grid} (h1 : gridLe g1 g2) (h2 : gridLe g2 g3) :
    gridLe g1 g3 := fun lc => contentStep_trans (h1 lc) (h2 lc)

/-! ### Effect of each rule on the cell map -/

theorem cons_same_effect {k0 : LineColumn} {cell : Cell} {t t' : List (LineColumn × Cell)}
    {P : LineColumn × Cell → Prop}
    (hf : t'.map Prod.fst = t.map Prod.fst)
    (hm : ∀ p ∈ t', p ∈ t ∨ P p)
    (hs : ∀ k, contentStep ((alookup t k).map Cell.content) ((alookup t' k).map Cell.content)) :
    ((k0, cell) :: t').map Prod.fst = ((k0, cell) :: t).map Prod.fst ∧
      (∀ p ∈ (k0, cell) :: t', p ∈ (k0, cell) :: t ∨ P p) ∧
      (∀ k, contentStep ((alookup ((k0, cell) :: t) k).map Cell.content)
        ((alookup ((k0, cell) :: t') k).map Cell.content)) := by
  refine ⟨by simp [hf], ?_, ?_⟩
  · intro q hq
    rcases List.mem_cons.mp hq with h4 | h4
    · exact Or.inl (h4 ▸ List.mem_cons_self _ _)
    · rcases hm q h4 with h5 | h5
      · exact Or.inl (List.mem_cons_of_mem _ h5)
      · exact Or.inr h5
  · intro k
    by_cases hk : k0 = k
    · subst hk
      simp [alookup]
      exact contentStep_refl _
    · simp [alookup, hk]
      exact hs k

theorem singleGo_some {l : List (LineColumn × Cell)} {l' : List (LineColumn × Cell)}
    {lc : LineColumn} {n : Nat} (h : singleGo l = some (l', lc, n)) :
    listEffect (fun p =>
      ∃ k cell set, (k, cell) ∈ l ∧ cell.content = CellContent.PossibleNumbers set ∧
        p = (k, { cell with content := CellContent.Number n })) l l' := by
  induction l generalizing l' with
  | nil => simp [singleGo] at h
  | cons p t ih =>
    rcases p with ⟨k0, cell⟩
    rcases cell with ⟨cz, clc, cct⟩
    rcases cct with _ | m | set
    · simp only [singleGo] at h
      rcases hgo : singleGo t with _ | r
      · rw [hgo] at h
        simp at h
      · rw [hgo] at h
        rcases r with ⟨t2, lc2, n2⟩
        have hmap : (some ((k0, (⟨cz, clc, CellContent.Undefined⟩ : Cell)) :: t2, lc2, n2) :
            Option (List (LineColumn × Cell) × LineColumn × Nat)) = some (l', lc, n) := h
        injection hmap with h1
        injection h1 with h1 h2
        injection h2 with h2 h3
        subst h3
        subst h2
        cases h1
        rcases ih hgo with ⟨ihf, ihm, ihs⟩
        unfold listEffect
        refine cons_same_effect ihf ?_ ihs
        intro q hq
        rcases ihm q hq with h5 | h5
        · exact Or.inl h5
        · obtain ⟨k, c2, st, h6, h7, h8⟩ := h5
          exact Or.inr ⟨k, c2, st, List.mem_cons_of_mem _ h6, h7, h8⟩
    · simp only [singleGo] at h
      rcases hgo : singleGo t with _ | r
      · rw [hgo] at h
        simp at h
      · rw [hgo] at h
        rcases r with ⟨t2, lc2, n2⟩
        have hmap : (some ((k0, (⟨cz, clc, CellContent.Number m⟩ : Cell)) :: t2, lc2, n2) :
            Option (List (LineColumn × Cell) × LineColumn × Nat)) = some (l', lc, n) := h
        injection hmap with h1
        injection h1 with h1 h2
        injection h2 with h2 h3
        subst h3
        subst h2
        cases h1
        rcases ih hgo with ⟨ihf, ihm, ihs⟩
        unfold listEffect
        refine cons_same_effect ihf ?_ ihs
        intro q hq
        rcases ihm q hq with h5 | h5
        · exact Or.inl h5
        · obtain ⟨k, c2, st, h6, h7, h8⟩ := h5
          exact Or.inr ⟨k, c2, st, List.mem_cons_of_mem _ h6, h7, h8⟩
    · simp only [singleGo] at h
      by_cases hlen : set.len = 1
      · rw [if_pos hlen] at h
        injection h with h1
        injection h1 with h1 h2
        injection h2 with h2 h3
        subst h3
        subst h2
        cases h1
        unfold listEffect
        refine ⟨by simp, ?_, ?_⟩
        · intro q hq
          rcases List.mem_cons.mp hq with h4 | h4
          · subst h4
            exact Or.inr ⟨k0, ⟨cz, clc, CellContent.PossibleNumbers set⟩, set,
              List.mem_cons_self _ _, rfl, rfl⟩
          · exact Or.inl (List.mem_cons_of_mem _ h4)
        · intro k
          by_cases hk : k0 = k
          · subst hk
            simp [alookup]
            trivial
          · simp [alookup, hk]
            exact contentStep_refl _
      · rw [if_neg hlen] at h
        rcases hgo : singleGo t with _ | r
        · rw [hgo] at h
          simp at h
        · rw [hgo] at h
          rcases r with ⟨t2, lc2, n2⟩
          have hmap : (some ((k0, (⟨cz, clc, CellContent.PossibleNumbers set⟩ : Cell)) :: t2, lc2, n2) :
              Option (List (LineColumn × Cell) × LineColumn × Nat)) = some (l', lc, n) := h
          injection hmap with h1
          injection h1 with h1 h2
          injection h2 with h2 h3
          subst h3
          subst h2
          cases h1
          rcases ih hgo with ⟨ihf, ihm, ihs⟩
          unfold listEffect
          refine cons_same_effect ihf ?_ ihs
          intro q hq
          rcases ihm q hq with h5 | h5
          · exact Or.inl h5
          · obtain ⟨k, c2, st, h6, h7, h8⟩ := h5
            exact Or.inr ⟨k, c2, st, List.mem_cons_of_mem _ h6, h7, h8⟩

theorem inZoneGo_some {zmap : List (Char × Simple09Set)} {l l' : List (LineColumn × Cell)}
    {lc : LineColumn} {cz0 : Char} {vec : List Nat}
    (h : inZoneGo zmap l = some (l', lc, cz0, vec)) :
    listEffect (fun p => ∃ k cell ct, (k, cell) ∈ l ∧ p = (k, { cell with content := ct })) l l' := by
  induction l generalizing l' with
  | nil => simp [inZoneGo] at h
  | cons p t ih =>
    rcases p with ⟨k0, cell⟩
    rcases cell with ⟨cz, clc, cct⟩
    rcases cct with _ | m | set
    · simp only [inZoneGo] at h
      rcases hgo : inZoneGo zmap t with _ | r
      · rw [hgo] at h
        simp at h
      · rw [hgo] at h
        rcases r with ⟨t2, rest⟩
        have hmap : (some ((k0, (⟨cz, clc, CellContent.Undefined⟩ : Cell)) :: t2, rest) :
            Option (List (LineColumn × Cell) × LineColumn × Char × List Nat)) =
            some (l', lc, cz0, vec) := h
        injection hmap with h1
        injection h1 with h1 h2
        cases h2
        cases h1
        rcases ih hgo with ⟨ihf, ihm, ihs⟩
        unfold listEffect
        refine cons_same_effect ihf ?_ ihs
        intro q hq
        rcases ihm q hq with h5 | h5
        · exact Or.inl h5
        · obtain ⟨k, c2, ct, h6, h7⟩ := h5
          exact Or.inr ⟨k, c2, ct, List.mem_cons_of_mem _ h6, h7⟩
    · simp only [inZoneGo] at h
      rcases hgo : inZoneGo zmap t with _ | r
      · rw [hgo] at h
        simp at h
      · rw [hgo] at h
        rcases r with ⟨t2, rest⟩
        have hmap : (some ((k0, (⟨cz, clc, CellContent.Number m⟩ : Cell)) :: t2, rest) :
            Option (List (LineColumn × Cell) × LineColumn × Char × List Nat)) =
            some (l', lc, cz0, vec) := h
        injection hmap with h1
        injection h1 with h1 h2
        cases h2
        cases h1
        rcases ih hgo with ⟨ihf, ihm, ihs⟩
        unfold listEffect
        refine cons_same_effect ihf ?_ ihs
        intro q hq
        rcases ihm q hq with h5 | h5
        · exact Or.inl h5
        · obtain ⟨k, c2, ct, h6, h7⟩ := h5
          exact Or.inr ⟨k, c2, ct, List.mem_cons_of_mem _ h6, h7⟩
    · simp only [inZoneGo] at h
      by_cases hemp :
          (((alookup zmap cz).getD Simple09Set.empty).intersection set).is_empty = true
      · rw [if_pos hemp] at h
        rcases hgo : inZoneGo zmap t with _ | r
        · rw [hgo] at h
          simp at h
        · rw [hgo] at h
          rcases r with ⟨t2, rest⟩
          have hmap : (some ((k0, (⟨cz, clc, CellContent.PossibleNumbers set⟩ : Cell)) :: t2, rest) :
              Option (List (LineColumn × Cell) × LineColumn × Char × List Nat)) =
              some (l', lc, cz0, vec) := h
          injection hmap with h1
          injection h1 with h1 h2
          cases h2
          cases h1
          rcases ih hgo with ⟨ihf, ihm, ihs⟩
          unfold listEffect
          refine cons_same_effect ihf ?_ ihs
          intro q hq
          rcases ihm q hq with h5 | h5
          · exact Or.inl h5
          · obtain ⟨k, c2, ct, h6, h7⟩ := h5
            exact Or.inr ⟨k, c2, ct, List.mem_cons_of_mem _ h6, h7⟩
      · rw [if_neg hemp] at h
        injection h with h1
        injection h1 with hA hB
        injection hB with hB1 hBrest
        injection hBrest with hB2 hB3
        subst hB1
        subst hB2
        subst hB3
        cases hA
        unfold listEffect
        refine ⟨by simp, ?_, ?_⟩
        · intro q hq
          rcases List.mem_cons.mp hq with h4 | h4
          · subst h4
            exact Or.inr ⟨k0, ⟨cz, clc, CellContent.PossibleNumbers set⟩, _,
              List.mem_cons_self _ _, rfl⟩
          · exact Or.inl (List.mem_cons_of_mem _ h4)
        · intro k
          by_cases hk : k0 = k
          · subst hk
            simp [alookup]
            intro d hd
            exact Simple09Set.contains_removeAll _ _ _ hd
          · simp [alookup, hk]
            exact contentStep_refl _

/-! ### Scan lemmas for the remaining rules -/

theorem findOnlyDigit_mem {m : List (Nat × OnlyNumber)} {n : Nat} {lc : LineColumn}
    (h : findOnlyDigit m = some (n, lc)) : (n, OnlyNumber.OnlyLineColumn lc) ∈ m := by
  induction m with
  | nil => simp [findOnlyDigit] at h
  | cons q t ih =>
    rcases q with ⟨n0, o0⟩
    rcases o0 with lc0 | _
    · simp only [findOnlyDigit] at h
      injection h with h1
      injection h1 with h1 h2
      subst h1
      subst h2
      exact List.mem_cons_self _ _
    · simp only [findOnlyDigit] at h
      exact List.mem_cons_of_mem _ (ih h)

theorem findZoneOnly_mem {v : List (Char × List (Nat × OnlyNumber))} {c : Char} {n : Nat}
    {lc : LineColumn} (h : findZoneOnly v = some (c, n, lc)) :
    ∃ m, (c, m) ∈ v ∧ findOnlyDigit m = some (n, lc) := by
  induction v with
  | nil => simp [findZoneOnly] at h
  | cons q t ih =>
    rcases q with ⟨c0, m0⟩
    rcases hf : findOnlyDigit m0 with _ | r
    · simp only [findZoneOnly, hf] at h
      rcases ih h with ⟨m, hm, hd⟩
      exact ⟨m, List.mem_cons_of_mem _ hm, hd⟩
    · simp only [findZoneOnly, hf] at h
      rcases r with ⟨n0, lc0⟩
      injection h with h1
      injection h1 with h1 h2
      injection h2 with h2 h3
      subst h1
      subst h2
      subst h3
      exact ⟨m0, List.mem_cons_self _ _, hf⟩

theorem mem_aupdate {α β : Type} [DecidableEq α] {l : List (α × β)} {k : α} {v : β}
    {p : α × β} (h : p ∈ aupdate l k v) : p ∈ l ∨ p = (k, v) := by
  unfold aupdate at h
  rcases h2 : alookup l k with _ | w
  · rw [h2] at h
    rcases List.mem_append.mp h with h3 | h3
    · exact Or.inl h3
    · simp at h3
      exact Or.inr h3
  · rw [h2] at h
    exact mem_areplace h

theorem onlyInsert_good {g : Grid} {m : List (Nat × OnlyNumber)} {n : Nat} {lc : LineColumn}
    (hg : GoodOnly g m)
    (hc : ∃ cell set, g.get_cell lc = some cell ∧
      cell.content = CellContent.PossibleNumbers set) :
    GoodOnly g (onlyInsert m n lc) := by
  intro q hq lc' hq2
  unfold onlyInsert at hq
  rcases h2 : alookup m n with _ | w
  · rw [h2] at hq
    rcases List.mem_append.mp hq with h3 | h3
    · exact hg q h3 lc' hq2
    · simp at h3
      subst h3
      simp at hq2
      subst hq2
      exact hc
  · rw [h2] at hq
    rcases mem_areplace hq with h3 | h3
    · exact hg q h3 lc' hq2
    · subst h3
      simp at hq2
  
theorem foldl_onlyInsert_good {g : Grid} {lc : LineColumn}
    (hc : ∃ cell set, g.get_cell lc = some cell ∧
      cell.content = CellContent.PossibleNumbers set)
    (digits : List Nat) :
    ∀ m, GoodOnly g m → GoodOnly g (digits.foldl (fun m' n => onlyInsert m' n lc) m) := by
  induction digits with
  | nil => exact fun m hm => hm
  | cons d t ih =>
    intro m hm
    exact ih _ (onlyInsert_good hm hc)

theorem zoneOnlyMap_good (g : Grid) (members : List LineColumn) :
    GoodOnly g (zoneOnlyMap g members) := by
  unfold zoneOnlyMap
  have main : ∀ (ms : List LineColumn) (m : List (Nat × OnlyNumber)), GoodOnly g m →
      GoodOnly g (ms.foldl (fun m' lc =>
        match g.get_cell lc with
        | some cell =>
            match cell.content with
            | CellContent.PossibleNumbers set =>
                set.as_vec_u8.foldl (fun m'' n => onlyInsert m'' n lc) m'
            | _ => m'
        | none => m') m) := by
    intro ms
    induction ms with
    | nil => exact fun m hm => hm
    | cons lc t ih =>
      intro m hm
      rcases hcell : g.get_cell lc with _ | cell
      · simp only [List.foldl_cons, hcell]
        exact ih m hm
      · rcases hct : cell.content with _ | n | set
        · simp only [List.foldl_cons, hcell, hct]
          exact ih m hm
        · simp only [List.foldl_cons, hcell, hct]
          exact ih m hm
        · simp only [List.foldl_cons, hcell, hct]
          exact ih _ (foldl_onlyInsert_good ⟨cell, set, hcell, hct⟩ _ m hm)
  exact main members [] (by intro q hq; simp at hq)

theorem neighborScan_some {g : Grid} {v : List (LineColumn × Simple09Set)}
    {lc alc : LineColumn} {nset : Simple09Set} {vec : List Nat}
    (h : neighborScan g v = some (lc, alc, nset, vec)) :
    ∃ cset, (lc, cset) ∈ v ∧
      nset = cset.removeAll ((cset.intersection (neighboringNumbers g lc)).as_vec_u8) := by
  induction v with
  | nil => simp [neighborScan] at h
  | cons q t ih =>
    rcases q with ⟨lc0, cset0⟩
    by_cases hemp : (cset0.intersection (neighboringNumbers g lc0)).is_empty = true
    · simp only [neighborScan, if_pos hemp] at h
      rcases ih h with ⟨cset, hm, he⟩
      exact ⟨cset, List.mem_cons_of_mem _ hm, he⟩
    · simp only [neighborScan, if_neg hemp] at h
      injection h with h1
      injection h1 with h1 h2
      injection h2 with h2 h3
      injection h3 with h3 h4
      subst h1
      subst h3
      exact ⟨cset0, List.mem_cons_self _ _, rfl⟩

theorem mem_possibleCellsVec {cells : List (LineColumn × Cell)} {lc : LineColumn}
    {cset : Simple09Set} (h : (lc, cset) ∈ possibleCellsVec cells) :
    ∃ k cell, (k, cell) ∈ cells ∧ cell.content = CellContent.PossibleNumbers cset ∧
      lc = cell.line_column := by
  unfold possibleCellsVec at h
  rcases List.mem_filterMap.mp h with ⟨p, hp, he⟩
  rcases p with ⟨k, cell⟩
  rcases hct : cell.content with _ | n | set
  · simp [hct] at he
  · simp [hct] at he
  · simp only [hct] at he
    injection he with h1
    injection h1 with h1 h2
    subst h2
    exact ⟨k, cell, hp, hct, h1.symm⟩

theorem dualScanRelC_some {g : Grid} {lcA : LineColumn} {setA : Simple09Set}
    {rcs : List (Int × Int)} {lcC : LineColumn} {nset : Simple09Set} {vec : List Nat}
    (h : dualScanRelC g lcA setA rcs = some (lcC, nset, vec)) :
    ∃ cellC setC, g.get_cell lcC = some cellC ∧
      cellC.content = CellContent.PossibleNumbers setC ∧
      nset = setC.removeAll ((setC.intersection setA).as_vec_u8) := by
  induction rcs with
  | nil => simp [dualScanRelC] at h
  | cons rc t ih =>
    rcases hcell : g.get_cell (lcA + LineColumn.new rc.1 rc.2) with _ | cellC0
    · simp only [dualScanRelC, hcell] at h
      exact ih h
    · rcases hct : cellC0.content with _ | n | setC0
      · simp only [dualScanRelC, hcell, hct] at h
        exact ih h
      · simp only [dualScanRelC, hcell, hct] at h
        exact ih h
      · by_cases hemp : (setC0.intersection setA).is_empty = true
        · simp only [dualScanRelC, hcell, hct, if_pos hemp] at h
          exact ih h
        · simp only [dualScanRelC, hcell, hct, if_neg hemp] at h
          injection h with h1
          injection h1 with h1 h2
          injection h2 with h2 h3
          subst h1
          subst h2
          exact ⟨cellC0, setC0, hcell, hct, rfl⟩

theorem dualScanPairs_some {g : Grid} {pairMap : List (LineColumn × Simple09Set)}
    {lcA : LineColumn} {setA : Simple09Set} {vp : List ((Int × Int) × List (Int × Int))}
    {lcB lcC : LineColumn} {nset : Simple09Set} {vec : List Nat}
    (h : dualScanPairs g pairMap lcA setA vp = some (lcB, lcC, nset, vec)) :
    ∃ cellC setC, g.get_cell lcC = some cellC ∧
      cellC.content = CellContent.PossibleNumbers setC ∧
      nset = setC.removeAll ((setC.intersection setA).as_vec_u8) := by
  induction vp with
  | nil => simp [dualScanPairs] at h
  | cons q t ih =>
    rcases q with ⟨rb, rcs⟩
    rcases hb : alookup pairMap (lcA + LineColumn.new rb.1 rb.2) with _ | setB
    · simp only [dualScanPairs, hb] at h
      exact ih h
    · by_cases hsame : setA = setB
      · rcases hrc : dualScanRelC g lcA setA rcs with _ | r
        · simp only [dualScanPairs, hb, if_pos hsame, hrc] at h
          exact ih h
        · simp only [dualScanPairs, hb, if_pos hsame, hrc] at h
          rcases r with ⟨lcC0, nset0, vec0⟩
          injection h with h1
          injection h1 with h1 h2
          injection h2 with h2 h3
          injection h3 with h3 h4
          subst h2
          subst h3
          exact dualScanRelC_some hrc
      · simp only [dualScanPairs, hb, if_neg hsame] at h
        exact ih h

theorem dualScanA_some {g : Grid} {pairMap entries : List (LineColumn × Simple09Set)}
    {lcA lcB lcC : LineColumn} {nset : Simple09Set} {vec : List Nat}
    (h : dualScanA g pairMap entries = some (lcA, lcB, lcC, nset, vec)) :
    ∃ cellC setC, g.get_cell lcC = some cellC ∧
      cellC.content = CellContent.PossibleNumbers setC ∧
      ∃ setA, nset = setC.removeAll ((setC.intersection setA).as_vec_u8) := by
  induction entries with
  | nil => simp [dualScanA] at h
  | cons q t ih =>
    rcases q with ⟨lcA0, setA0⟩
    rcases hp : dualScanPairs g pairMap lcA0 setA0 vec_pairs with _ | r
    · simp only [dualScanA, hp] at h
      exact ih h
    · simp only [dualScanA, hp] at h
      rcases r with ⟨lcB0, lcC0, nset0, vec0⟩
      injection h with h1
      injection h1 with h1 h2
      injection h2 with h2 h3
      injection h3 with h3 h4
      injection h4 with h4 h5
      subst h3
      subst h4
      rcases dualScanPairs_some hp with ⟨cellC, setC, hc1, hc2, hc3⟩
      exact ⟨cellC, setC, hc1, hc2, setA0, hc3⟩

theorem mem_pairCellsMap {cells : List (LineColumn × Cell)} {lc : LineColumn}
    {set : Simple09Set} (h : (lc, set) ∈ pairCellsMap cells) :
    ∃ cell, (lc, cell) ∈ cells ∧ cell.content = CellContent.PossibleNumbers set := by
  unfold pairCellsMap at h
  have main : ∀ (cs : List (LineColumn × Cell)) (m : List (LineColumn × Simple09Set)),
      (∀ q ∈ m, ∃ cell, (q.1, cell) ∈ cells ∧
        cell.content = CellContent.PossibleNumbers q.2) →
      (∀ q ∈ cs, q ∈ cells) →
      (lc, set) ∈ cs.foldl (fun m' p =>
        match p.2.content with
        | CellContent.PossibleNumbers st => if st.len = 2 then aupdate m' p.1 st else m'
        | _ => m') m →
      ∃ cell, (lc, cell) ∈ cells ∧ cell.content = CellContent.PossibleNumbers set := by
    intro cs
    induction cs with
    | nil =>
      intro m hm _ hmem
      rcases hm (lc, set) hmem with ⟨cell, h1, h2⟩
      exact ⟨cell, h1, h2⟩
    | cons p t ih =>
      intro m hm hsub hmem
      rcases p with ⟨k0, cell0⟩
      rcases hct : cell0.content with _ | n | st
      · simp only [List.foldl_cons, hct] at hmem
        exact ih m hm (fun q hq => hsub q (List.mem_cons_of_mem _ hq)) hmem
      · simp only [List.foldl_cons, hct] at hmem
        exact ih m hm (fun q hq => hsub q (List.mem_cons_of_mem _ hq)) hmem
      · by_cases hlen : st.len = 2
        · simp only [List.foldl_cons, hct, if_pos hlen] at hmem
          refine ih _ ?_ (fun q hq => hsub q (List.mem_cons_of_mem _ hq)) hmem
          intro q hq
          rcases mem_aupdate hq with h1 | h1
          · exact hm q h1
          · subst h1
            exact ⟨cell0, hsub (k0, cell0) (List.mem_cons_self _ _), hct⟩
        · simp only [List.foldl_cons, hct, if_neg hlen] at hmem
          exact ih m hm (fun q hq => hsub q (List.mem_cons_of_mem _ hq)) hmem
  exact main cells [] (by intro q hq; simp at hq) (fun q hq => hq) h

theorem tryDigitsWith_some {solveFn : Solver → SolveOut} {d : Int} {s1 : Solver}
    {lc : LineColumn} {vec_n l : List Nat} {a : SolvingAction} {s2 : Solver}
    (h : (tryDigitsWith solveFn d s1 lc vec_n l).1 = some (a, s2)) :
    ∃ x, s2 = { s1 with grid := s1.grid.setCellContent lc (CellContent.Number x) } := by
  induction l with
  | nil => simp [tryDigitsWith] at h
  | cons n ns ih =>
    rw [tryDigitsWith] at h
    rcases hsub : (solveFn { grid := s1.grid.setCellContent lc (CellContent.Number n), init_cell_contents := false, difficulty_level := DifficultyLevel.Unknown, max_try_and_see_recursion_level := s1.max_try_and_see_recursion_level, try_and_see_recursion_level := s1.try_and_see_recursion_level }).res with e | solved
    · rw [hsub] at h
      simp only at h
      injection h with h1
      injection h1 with h1 h2
      subst h2
      exact ⟨_, rfl⟩
    · rw [hsub] at h
      by_cases hsv : solved = true
      · subst hsv
        simp only [if_pos rfl] at h
        injection h with h1
        injection h1 with h1 h2
        subst h2
        exact ⟨_, rfl⟩
      · have hsv2 : solved = false := by
          rcases solved with _ | _
          · rfl
          · exact absurd rfl hsv
        subst hsv2
        simp only [Bool.false_eq_true, if_neg] at h
        exact ih h

theorem tryCellsWith_some {solveFn : Solver → SolveOut} {d : Int} {s1 : Solver}
    {entries : List (LineColumn × Simple09Set)} {a : SolvingAction} {s2 : Solver}
    (h : (tryCellsWith solveFn d s1 entries).1 = some (a, s2)) :
    ∃ lc set x, (lc, set) ∈ entries ∧
      s2 = { s1 with grid := s1.grid.setCellContent lc (CellContent.Number x) } := by
  induction entries with
  | nil => simp [tryCellsWith] at h
  | cons q t ih =>
    rcases q with ⟨lc0, set0⟩
    rw [tryCellsWith] at h
    rcases hd : (tryDigitsWith solveFn d s1 lc0 set0.as_vec_u8 set0.as_vec_u8).1 with _ | p
    · rw [hd] at h
      simp only at h
      rcases ih h with ⟨lc, st, x, hm, he⟩
      exact ⟨lc, st, x, List.mem_cons_of_mem _ hm, he⟩
    · rw [hd] at h
      simp only at h
      rcases p with ⟨a0, s0⟩
      injection h with h1
      injection h1 with h1 h2
      subst h2
      rcases tryDigitsWith_some hd with ⟨x, he⟩
      exact ⟨lc0, set0, x, List.mem_cons_self _ _, he⟩

/-! ### Each rule preserves well-formedness and shrinks contents -/

theorem listEffect_pres {l l' : List (LineColumn × Cell)}
    {P : LineColumn × Cell → Prop}
    (hP : ∀ p, P p → ∃ k cell ct, (k, cell) ∈ l ∧ p = (k, { cell with content := ct }))
    (he : listEffect P l l')
    (hnd : (l.map Prod.fst).Nodup) (hfld : ∀ p ∈ l, p.2.line_column = p.1) :
    (l'.map Prod.fst).Nodup ∧ (∀ p ∈ l', p.2.line_column = p.1) := by
  rcases he with ⟨hf, hm, _⟩
  constructor
  · rw [hf]
    exact hnd
  · intro p hp
    rcases hm p hp with h1 | h1
    · exact hfld p h1
    · rcases hP p h1 with ⟨k, cell, ct, h2, h3⟩
      subst h3
      exact hfld (k, cell) h2

theorem setCellContent_WF {g : Grid} (hwf : GridWF g) (lc : LineColumn) (ct : CellContent) :
    GridWF (g.setCellContent lc ct) := by
  constructor
  · rw [setCellContent_map_fst]
    exact hwf.1
  · intro p hp
    rcases mem_setCellContent hp with h1 | ⟨cell, h1, h2⟩
    · exact hwf.2 p h1
    · subst h2
      exact hwf.2 (lc, cell) (alookup_mem h1)

theorem setCellContent_gridLe {g : Grid} {lc : LineColumn} {ct : CellContent}
    (h : contentStep ((g.get_cell lc).map Cell.content) (((g.get_cell lc).map
      (fun c => { c with content := ct })).map Cell.content)) :
    gridLe g (g.setCellContent lc ct) := by
  intro lc'
  rw [get_cell_setCellContent]
  by_cases h1 : lc' = lc
  · subst h1
    simp only [if_pos rfl]
    exact h
  · simp only [if_neg h1]
    exact contentStep_refl _

theorem rulePres_single : rulePres solve_single_possible_number := by
  intro s hwf
  unfold solve_single_possible_number
  rcases hgo : singleGo s.grid.hashmap_cells with _ | r
  · exact ⟨gridLe_refl _, hwf⟩
  · rcases r with ⟨cells, lc, n⟩
    rcases singleGo_some hgo with ⟨hf, hm, hs⟩
    constructor
    · intro lc'
      exact hs lc'
    · exact listEffect_pres
        (fun p hp => by
          rcases hp with ⟨k, cell, set, h1, h2, h3⟩
          exact ⟨k, cell, CellContent.Number n, h1, h3⟩)
        ⟨hf, hm, hs⟩ hwf.1 hwf.2

theorem rulePres_in_zone : rulePres solve_numbers_in_zone := by
  intro s hwf
  unfold solve_numbers_in_zone
  rcases hgo : inZoneGo (zonePlacedSets s.grid) s.grid.hashmap_cells with _ | r
  · exact ⟨gridLe_refl _, hwf⟩
  · rcases r with ⟨cells, lc, cz, vec⟩
    rcases inZoneGo_some hgo with ⟨hf, hm, hs⟩
    constructor
    · intro lc'
      exact hs lc'
    · exact listEffect_pres (fun p hp => hp) ⟨hf, hm, hs⟩ hwf.1 hwf.2

theorem rulePres_only : rulePres solve_only_number_in_zone := by
  intro s hwf
  rcases hfz : findZoneOnly (List.map (fun p => (p.1, zoneOnlyMap s.grid p.2.set_line_column))
      s.grid.hashmap_zones) with _ | r
  · simp only [solve_only_number_in_zone, hfz]
    exact ⟨gridLe_refl _, hwf⟩
  · rcases r with ⟨c, n, lc⟩
    simp only [solve_only_number_in_zone, hfz]
    rcases findZoneOnly_mem hfz with ⟨m, hmem, hfd⟩
    rcases List.mem_map.mp hmem with ⟨pz, _, hpz⟩
    have hme : m = zoneOnlyMap s.grid pz.2.set_line_column := by
      injection hpz with h1 h2
      exact h2.symm
    have hgood : GoodOnly s.grid m := by
      rw [hme]
      exact zoneOnlyMap_good _ _
    rcases hgood (n, OnlyNumber.OnlyLineColumn lc) (findOnlyDigit_mem hfd) lc rfl with
      ⟨cell, set, hcell, hct⟩
    constructor
    · refine setCellContent_gridLe ?_
      rw [hcell]
      show contentStep (some cell.content) (some (CellContent.Number n))
      rw [hct]
      trivial
    · exact setCellContent_WF hwf _ _

theorem rulePres_neighboring : rulePres solve_numbers_neighboring := by
  intro s hwf
  rcases hsc : neighborScan s.grid (possibleCellsVec s.grid.hashmap_cells) with _ | r
  · simp only [solve_numbers_neighboring, hsc]
    exact ⟨gridLe_refl _, hwf⟩
  · rcases r with ⟨lc, alc, nset, vec⟩
    simp only [solve_numbers_neighboring, hsc]
    rcases neighborScan_some hsc with ⟨cset, hmem, hns⟩
    rcases mem_possibleCellsVec hmem with ⟨k, cell, hk, hct, hlc⟩
    have hkey : lc = k := by
      rw [hlc, hwf.2 (k, cell) hk]
    subst hkey
    have hcell : s.grid.get_cell lc = some cell := alookup_of_mem_nodup hwf.1 hk
    constructor
    · refine setCellContent_gridLe ?_
      rw [hcell]
      show contentStep (some cell.content) (some (CellContent.PossibleNumbers nset))
      rw [hct, hns]
      intro d hd
      exact Simple09Set.contains_removeAll _ _ _ hd
    · exact setCellContent_WF hwf _ _

theorem rulePres_dual : rulePres solve_dual_values_pair := by
  intro s hwf
  rcases hsc : dualScanA s.grid (pairCellsMap s.grid.hashmap_cells)
      (pairCellsMap s.grid.hashmap_cells) with _ | r
  · simp only [solve_dual_values_pair, hsc]
    exact ⟨gridLe_refl _, hwf⟩
  · rcases r with ⟨lcA, lcB, lcC, nset, vec⟩
    simp only [solve_dual_values_pair, hsc]
    rcases dualScanA_some hsc with ⟨cellC, setC, hcell, hct, setA, hns⟩
    constructor
    · refine setCellContent_gridLe ?_
      rw [hcell]
      show contentStep (some cellC.content) (some (CellContent.PossibleNumbers nset))
      rw [hct, hns]
      intro d hd
      exact Simple09Set.contains_removeAll _ _ _ hd
    · exact setCellContent_WF hwf _ _

theorem rulePres_tryWith (solveFn : Solver → SolveOut) :
    rulePres (solve_try_and_seeWith solveFn) := by
  intro s hwf
  rw [solve_try_and_seeWith]
  by_cases hguard : s.max_try_and_see_recursion_level ≤ s.try_and_see_recursion_level
  · rw [if_pos hguard]
    exact ⟨gridLe_refl _, hwf⟩
  · rw [if_neg hguard]
    rcases htc : (tryCellsWith solveFn s.try_and_see_recursion_level
        { s with try_and_see_recursion_level := s.try_and_see_recursion_level + 1 }
        (pairCellsMap s.grid.hashmap_cells)).1 with _ | p
    · simp only [htc]
      exact ⟨gridLe_refl _, hwf⟩
    · rcases p with ⟨a, s2⟩
      simp only [htc]
      rcases tryCellsWith_some htc with ⟨lc, set, x, hmem, hs2⟩
      subst hs2
      rcases mem_pairCellsMap hmem with ⟨cell, hk, hct⟩
      have hcell : s.grid.get_cell lc = some cell := alookup_of_mem_nodup hwf.1 hk
      constructor
      · refine setCellContent_gridLe ?_
        rw [hcell]
        show contentStep (some cell.content) (some (CellContent.Number x))
        rw [hct]
        trivial
      · exact setCellContent_WF hwf _ _

theorem rulePres_try (fuel : Nat) : rulePres (solve_try_and_see fuel) :=
  rulePres_tryWith (fun s2 => solve fuel [] s2)

theorem initCellContent_line_column (zmap : List (Char × Simple09Set)) (cell : Cell) :
    (initCellContent zmap cell).line_column = cell.line_column := by
  unfold initCellContent
  rcases cell with ⟨cz, clc, cct⟩
  rcases cct with _ | n | set <;> rfl

theorem initCells_map_fst (zmap : List (Char × Simple09Set)) (l : List (LineColumn × Cell)) :
    ((initCells zmap l).map Prod.fst) = l.map Prod.fst := by
  unfold initCells
  rw [List.map_map]
  rfl

theorem init_pres (s : Solver) (hwf : GridWF s.grid) :
    gridLe s.grid ((solve_step_possible_numbers s).solver.grid) ∧
      GridWF ((solve_step_possible_numbers s).solver.grid) := by
  unfold solve_step_possible_numbers
  constructor
  · intro lc
    show contentStep ((s.grid.get_cell lc).map Cell.content)
      ((alookup (initCells (zoneFullSets s.grid.hashmap_zones) s.grid.hashmap_cells) lc).map
        Cell.content)
    have hmap : alookup (initCells (zoneFullSets s.grid.hashmap_zones) s.grid.hashmap_cells) lc
        = (s.grid.get_cell lc).map (initCellContent (zoneFullSets s.grid.hashmap_zones)) := by
      unfold initCells
      rw [alookup_map_value]
      rfl
    rw [hmap]
    rcases hgc : s.grid.get_cell lc with _ | cell
    · trivial
    · show contentStep (some cell.content) (some (initCellContent _ cell).content)
      unfold initCellContent
      rcases cell with ⟨cz, clc, cct⟩
      rcases cct with _ | n | set
      · trivial
      · rfl
      · intro d hd
        exact hd
  · constructor
    · show ((initCells _ s.grid.hashmap_cells).map Prod.fst).Nodup
      rw [initCells_map_fst]
      exact hwf.1
    · intro p hp
      rcases List.mem_map.mp hp with ⟨q, hq, he⟩
      subst he
      show (initCellContent _ q.2).line_column = q.1
      rw [initCellContent_line_column]
      exact hwf.2 q hq

theorem applyRules_pres {rules : List ((Solver → RuleOut) × DifficultyLevel)}
    (hrules : ∀ q ∈ rules, rulePres q.1) :
    ∀ s, GridWF s.grid → gridLe s.grid ((applyRules s rules).solver.grid) ∧
      GridWF ((applyRules s rules).solver.grid) := by
  induction rules with
  | nil =>
    intro s hwf
    exact ⟨gridLe_refl _, hwf⟩
  | cons q t ih =>
    intro s hwf
    rcases q with ⟨f, d⟩
    have hf := hrules (f, d) (List.mem_cons_self _ _) s hwf
    rcases ha : (f s).action with _ | _ | _ | _ | _ | _ | _ | _ | _ | _ <;>
      simp only [applyRules, ha]
    case NoAction =>
      have ht := ih (fun q hq => hrules q (List.mem_cons_of_mem _ hq)) (f s).solver hf.2
      exact ⟨gridLe_trans hf.1 ht.1, ht.2⟩
    all_goals exact ⟨hf.1, hf.2⟩

theorem rulesPhaseWith_pres (solveFn : Solver → SolveOut) (s : Solver) (hwf : GridWF s.grid) :
    gridLe s.grid ((rulesPhaseWith solveFn s).solver.grid) ∧
      GridWF ((rulesPhaseWith solveFn s).solver.grid) := by
  have hhead : ∀ q ∈ vec_of_functions_head, rulePres q.1 := by
    intro q hq
    simp only [vec_of_functions_head, List.mem_cons] at hq
    rcases hq with h | h | h | h | h | h
    · rw [h]
      exact rulePres_single
    · rw [h]
      exact rulePres_in_zone
    · rw [h]
      exact rulePres_only
    · rw [h]
      exact rulePres_neighboring
    · rw [h]
      exact rulePres_dual
    · simp at h
  have h5 := applyRules_pres hhead s hwf
  rw [rulesPhaseWith]
  rcases ha5 : (applyRules s vec_of_functions_head).action
    with _ | _ | _ | _ | _ | _ | _ | _ | _ | _ <;> simp only [ha5]
  case NoAction =>
    have h6 := rulePres_tryWith solveFn (applyRules s vec_of_functions_head).solver h5.2
    rcases ha6 : (solve_try_and_seeWith solveFn (applyRules s vec_of_functions_head).solver).action
      with _ | _ | _ | _ | _ | _ | _ | _ | _ | _ <;> simp only [ha6]
    all_goals exact ⟨gridLe_trans h5.1 h6.1, h6.2⟩
  all_goals exact ⟨h5.1, h5.2⟩

theorem solveStepWith_pres (solveFn : Solver → SolveOut) (s : Solver) (hwf : GridWF s.grid) :
    gridLe s.grid ((solveStepWith solveFn s).solver.grid) ∧
      GridWF ((solveStepWith solveFn s).solver.grid) := by
  rw [solveStepWith]
  rcases hchk : s.check with e | u
  · exact ⟨gridLe_refl _, hwf⟩
  · rcases u
    by_cases hinit : s.init_cell_contents = false
    · simp only [if_pos hinit]
      exact init_pres { s with init_cell_contents := true } hwf
    · simp only [if_neg hinit]
      by_cases hsv : s.is_solved
      · simp only [if_pos hsv]
        exact ⟨gridLe_refl _, hwf⟩
      · simp only [if_neg hsv]
        exact rulesPhaseWith_pres solveFn s hwf

theorem solveStep_pres (fuel : Nat) (s : Solver) (hwf : GridWF s.grid) :
    gridLe s.grid ((solveStep fuel s).solver.grid) ∧
      GridWF ((solveStep fuel s).solver.grid) :=
  solveStepWith_pres (fun s2 => solve fuel [] s2) s hwf

/-! ### The discarded local value of `difference` -/

theorem Simple09Set.contains_le9 {s : Simple09Set} {d : Nat}
    (h : s.contains d = true) : d ≤ 9 := by
  by_contra hgt
  rw [Simple09Set.contains_of_gt9 s (by omega)] at h
  exact Bool.false_ne_true h

theorem diff_fold (t : Simple09Set) (l : List Nat) (s : Simple09Set) (d : Nat) :
    ((l.foldl (fun acc digit =>
        if acc.contains digit && !(t.contains digit) then acc.remove digit else acc) s).contains d)
      = (s.contains d && (decide (d ∉ l) || t.contains d)) := by
  induction l generalizing s with
  | nil => simp
  | cons x xs ih =>
    simp only [List.foldl_cons]
    by_cases hcond : (s.contains x && !(t.contains x)) = true
    · rw [if_pos hcond]
      rw [ih]
      have hx9 : x ≤ 9 := Simple09Set.contains_le9 (Bool.and_eq_true_iff.mp hcond).1
      by_cases hdx : d = x
      · subst hdx
        rw [Simple09Set.contains_remove]
        have ht : t.contains d = false := by
          have := (Bool.and_eq_true_iff.mp hcond).2
          rcases hv : t.contains d
          · rfl
          · rw [hv] at this
            simp at this
        simp [hx9, ht]
      · rw [Simple09Set.contains_remove]
        have hmem : (d ∉ x :: xs) ↔ (d ∉ xs) := by
          simp [List.mem_cons, hdx]
        simp only [decide_eq_true_eq] at *
        rcases hv : decide (d ∉ xs) <;> rcases hw : decide (d ∉ x :: xs) <;>
          simp only [decide_eq_true_eq, decide_eq_false_iff_not] at hv hw <;>
          simp [hdx, hmem.symm.mp, hv, hw] <;> tauto
    · rw [if_neg hcond]
      rw [ih]
      by_cases hdx : d = x
      · subst hdx
        rcases hs : s.contains d
        · simp
        · have : t.contains d = true := by
            rcases hv : t.contains d
            · rw [hs, hv] at hcond
              simp at hcond
            · rfl
          simp [this]
      · have hmem : (d ∉ x :: xs) ↔ (d ∉ xs) := by
          simp [List.mem_cons, hdx]
        rcases hv : decide (d ∉ xs) <;> rcases hw : decide (d ∉ x :: xs) <;>
          simp only [decide_eq_true_eq, decide_eq_false_iff_not] at hv hw <;>
          simp [hv, hw] <;> tauto

/-! ## Claims -/

/-- C10: for every pair of digit sets `s` and `t`, `s.difference(t)` leaves
the caller's `s` unchanged — the method receives `self` by value, mutates
only its local copy and returns nothing, so no invocation of `difference`
ever changes a caller-visible set.  The second conjunct shows the discarded
local copy really was modified to the digit-wise intersection, so the
frame property is about a genuinely discarded computation. -/
theorem C10_difference_leaves_caller_unchanged (s t : Simple09Set) :
    (s.difference t).1 = s ∧
      ∀ d, (s.difference_local t).contains d = (s.contains d && t.contains d) := by
  constructor
  · rfl
  · intro d
    unfold Simple09Set.difference_local
    rw [diff_fold]
    rcases le_or_lt d 9 with h | h
    · have hmem : decide (d ∉ List.range 10) = false := by
        simp [List.mem_range]
        omega
      rw [hmem]
      simp
    · rw [Simple09Set.contains_of_gt9 _ h]
      simp [Simple09Set.contains_of_gt9 _ h]

/-- C9: parsing does NOT ignore lines starting with `#`: on
`"# comment\na1"` the token `comment` (7 characters) is a parse error at
line 0, column 1, whereas the same text with the `#` line deleted parses
successfully — contradicting the documented behaviour (`lib.rs`: a line
starting with `#` is a comment) and the solver tests that feed commented
grids to `from_str`.  Blank lines are ignored as claimed, and a token that
is neither 1 character nor zone letter + decimal digit is a parse error
carrying the offending (line, column). -/
theorem C9_comment_lines_not_skipped :
    Grid.fromStr "# comment\na1" = Except.error ⟨0, 1⟩ ∧
      Grid.fromStr "a1" = Except.ok gOneCell ∧
      Grid.fromStr "\n   \na1" = Except.ok gOneCell ∧
      Grid.fromStr "a1 b99" = Except.error ⟨0, 1⟩ ∧
      Grid.fromStr "a1 bz" = Except.error ⟨0, 1⟩ := by
  refine ⟨?_, ?_, ?_, ?_, ?_⟩ <;> rfl

/-! ### Iterated steps -/

theorem stepIterF_pres (fuels : Nat → Nat) (s : Solver) (hwf : GridWF s.grid) :
    ∀ n, gridLe s.grid ((stepIterF fuels s n).grid) ∧ GridWF ((stepIterF fuels s n).grid) := by
  intro n
  induction n with
  | zero => exact ⟨gridLe_refl _, hwf⟩
  | succ n ih =>
    have hstep := solveStep_pres (fuels n) (stepIterF fuels s n) ih.2
    exact ⟨gridLe_trans ih.1 hstep.1, hstep.2⟩

theorem stepIterF_le (fuels : Nat → Nat) (s : Solver) (hwf : GridWF s.grid)
    {n m : Nat} (hnm : n ≤ m) :
    gridLe ((stepIterF fuels s n).grid) ((stepIterF fuels s m).grid) := by
  induction m with
  | zero =>
    have : n = 0 := Nat.le_zero.mp hnm
    subst this
    exact gridLe_refl _
  | succ m ih =>
    rcases Nat.lt_or_ge n (m + 1) with h | h
    · have hle : n ≤ m := Nat.lt_succ_iff.mp h
      have hstep := solveStep_pres (fuels m) (stepIterF fuels s m)
        (stepIterF_pres fuels s hwf m).2
      exact gridLe_trans (ih hle) hstep.1
    · have : n = m + 1 := Nat.le_antisymm hnm h
      subst this
      exact gridLe_refl _

/-- C6: for every solver (with the `HashMap` well-formedness of its cell
map) and every sequence of `solve_step` calls, once a digit is absent from a
cell's candidate set it never reappears in that cell's candidate set at any
later point of the same solver's lifetime: candidate sets shrink
monotonically until the cell is finalized. -/
theorem C6_candidates_shrink (fuels : Nat → Nat) (s : Solver)
    (hwf : GridWF s.grid) {n m : Nat} (hnm : n ≤ m) (lc : LineColumn) (d : Nat)
    {p q : Simple09Set}
    (hn : ((stepIterF fuels s n).grid.get_cell lc).map Cell.content
      = some (CellContent.PossibleNumbers p))
    (hd : p.contains d = false)
    (hm : ((stepIterF fuels s m).grid.get_cell lc).map Cell.content
      = some (CellContent.PossibleNumbers q)) :
    q.contains d = false := by
  have hle := stepIterF_le fuels s hwf hnm lc
  rw [hn, hm] at hle
  rcases hv : q.contains d
  · rfl
  · rw [(hle d hv : p.contains d = true)] at hd
    exact hd

/-- Witness for C6 at a concrete input: after one step on `sShrink`
(the neighbour rule removes 1 from the cell `(0,1)`, leaving `{2}`, mask 4),
the digit 3 — absent from `{1,2}` (mask 6) at step 0 — is still absent. -/
theorem C6_candidates_shrink_witness :
    ((stepIterF (fun _ => 1) sShrink 0).grid.get_cell ⟨0, 1⟩).map Cell.content
        = some (CellContent.PossibleNumbers (Simple09Set.mk 6)) ∧
      (Simple09Set.mk 6).contains 3 = false ∧
      ((stepIterF (fun _ => 1) sShrink 1).grid.get_cell ⟨0, 1⟩).map Cell.content
        = some (CellContent.PossibleNumbers (Simple09Set.mk 4)) ∧
      (Simple09Set.mk 4).contains 3 = false := by
  refine ⟨by decide, by decide, by decide, ?_⟩
  exact @C6_candidates_shrink (fun _ => 1) sShrink (by decide) 0 1 (Nat.zero_le 1) ⟨0, 1⟩ 3
    (Simple09Set.mk 6) (Simple09Set.mk 4) (by decide) (by decide) (by decide)

/-! ### Semantics of the consistency checks -/

theorem findNeighborSameNumber_none {g : Grid} {n : Nat} {l : List LineColumn}
    (h : findNeighborSameNumber g n l = none) :
    ∀ nlc ∈ l, ∀ ncell, g.get_cell nlc = some ncell → ncell.content ≠ CellContent.Number n := by
  induction l with
  | nil => intro nlc h1; simp at h1
  | cons x t ih =>
    intro nlc h1 ncell h2 h3
    rcases hx : g.get_cell x with _ | xcell
    · simp only [findNeighborSameNumber, hx] at h
      rcases List.mem_cons.mp h1 with h4 | h4
      · subst h4
        rw [hx] at h2
        cases h2
      · exact ih h nlc h4 ncell h2 h3
    · rcases hct : xcell.content with _ | m | set
      · simp only [findNeighborSameNumber, hx, hct] at h
        rcases List.mem_cons.mp h1 with h4 | h4
        · subst h4
          rw [hx] at h2
          injection h2 with h2
          subst h2
          rw [h3] at hct
          cases hct
        · exact ih h nlc h4 ncell h2 h3
      · simp only [findNeighborSameNumber, hx, hct] at h
        by_cases hnm : n = m
        · rw [if_pos hnm] at h
          cases h
        · rw [if_neg hnm] at h
          rcases List.mem_cons.mp h1 with h4 | h4
          · subst h4
            rw [hx] at h2
            injection h2 with h2
            subst h2
            rw [h3] at hct
            injection hct with hct
            exact hnm hct
          · exact ih h nlc h4 ncell h2 h3
      · simp only [findNeighborSameNumber, hx, hct] at h
        rcases List.mem_cons.mp h1 with h4 | h4
        · subst h4
          rw [hx] at h2
          injection h2 with h2
          subst h2
          rw [h3] at hct
          cases hct
        · exact ih h nlc h4 ncell h2 h3

theorem checkNeighboringGo_ok {g : Grid} {l : List (LineColumn × Cell)}
    (h : checkNeighboringGo g l = Except.ok ()) :
    ∀ p ∈ l, ∀ n, p.2.content = CellContent.Number n →
      ∀ nlc ∈ neighboringLineColumns p.1 g.min_line_column g.max_line_column,
        ∀ ncell, g.get_cell nlc = some ncell → ncell.content ≠ CellContent.Number n := by
  induction l with
  | nil => intro p h1; simp at h1
  | cons q t ih =>
    intro p h1 n h2 nlc h3 ncell h4 h5
    rcases q with ⟨lc0, cell0⟩
    rcases hct : cell0.content with _ | m | set
    · simp only [checkNeighboringGo, hct] at h
      rcases List.mem_cons.mp h1 with h6 | h6
      · subst h6
        rw [h2] at hct
        cases hct
      · exact ih h p h6 n h2 nlc h3 ncell h4 h5
    · simp only [checkNeighboringGo, hct] at h
      rcases hfind : findNeighborSameNumber g m
          (neighboringLineColumns lc0 g.min_line_column g.max_line_column) with _ | w
      · rw [hfind] at h
        rcases List.mem_cons.mp h1 with h6 | h6
        · subst h6
          simp only at h2
          rw [h2] at hct
          injection hct with hct
          subst hct
          exact findNeighborSameNumber_none hfind nlc h3 ncell h4 h5
        · exact ih h p h6 n h2 nlc h3 ncell h4 h5
      · rw [hfind] at h
        cases h
    · simp only [checkNeighboringGo, hct] at h
      rcases List.mem_cons.mp h1 with h6 | h6
      · subst h6
        rw [h2] at hct
        cases hct
      · exact ih h p h6 n h2 nlc h3 ncell h4 h5

theorem checkNeighboringGo_error_shape {g : Grid} {l : List (LineColumn × Cell)}
    {e : SolvingError} (h : checkNeighboringGo g l = Except.error e) :
    ∃ a b m, e = SolvingError.NeighboringWithSameNumber a b m := by
  induction l with
  | nil => simp [checkNeighboringGo] at h
  | cons q t ih =>
    rcases q with ⟨lc0, cell0⟩
    rcases hct : cell0.content with _ | m | set
    · simp only [checkNeighboringGo, hct] at h
      exact ih h
    · simp only [checkNeighboringGo, hct] at h
      rcases hfind : findNeighborSameNumber g m
          (neighboringLineColumns lc0 g.min_line_column g.max_line_column) with _ | w
      · rw [hfind] at h
        exact ih h
      · rw [hfind] at h
        injection h with h1
        exact ⟨lc0, w, m, h1.symm⟩
    · simp only [checkNeighboringGo, hct] at h
      exact ih h

theorem check_error_of_neighboring {s : Solver} {e : SolvingError}
    (hzl : s.init_cell_contents = false → check_zone_too_long s.grid = Except.ok ())
    (hzu : s.init_cell_contents = false → check_zone_with_unexpected_number s.grid = Except.ok ())
    (hne : check_neighboring_cells s.grid = Except.error e) :
    s.check = Except.error e := by
  have hci : checkInitial s = Except.ok () := by
    unfold checkInitial
    by_cases hi : s.init_cell_contents = false
    · simp only [if_pos hi, hzl hi, hzu hi]
    · simp only [if_neg hi]
  unfold Solver.check
  simp only [hci, hne]

/-- C2, amended: for every Solver whose grid contains two 8-neighbouring
cells finalized to the same digit — provided the two zone checks that the
source runs first (zone at most 9 cells, no digit above its zone size;
executed only before candidate initialization) pass — `solve_step` returns
the `NeighboringWithSameNumber` violation before any rule runs and leaves
the solver, in particular its grid, unchanged. -/
theorem C2_neighbor_error_before_rules (fuel : Nat) (s : Solver)
    (hzl : s.init_cell_contents = false → check_zone_too_long s.grid = Except.ok ())
    (hzu : s.init_cell_contents = false → check_zone_with_unexpected_number s.grid = Except.ok ())
    (lc1 lc2 : LineColumn) (n : Nat) (cell1 cell2 : Cell)
    (h1 : s.grid.get_cell lc1 = some cell1) (hc1 : cell1.content = CellContent.Number n)
    (hnb : lc2 ∈ neighboringLineColumns lc1 s.grid.min_line_column s.grid.max_line_column)
    (h2 : s.grid.get_cell lc2 = some cell2) (hc2 : cell2.content = CellContent.Number n) :
    ∃ a b m, solveStep fuel s
      = ⟨Except.error (SolvingError.NeighboringWithSameNumber a b m), s, []⟩ := by
  rcases hne : check_neighboring_cells s.grid with e | u
  · rcases checkNeighboringGo_error_shape hne with ⟨a, b, m, he⟩
    subst he
    refine ⟨a, b, m, ?_⟩
    have hchk := check_error_of_neighboring hzl hzu hne
    unfold solveStep solveStepWith
    simp only [hchk]
  · exfalso
    exact checkNeighboringGo_ok hne (lc1, cell1) (alookup_mem h1) n hc1 lc2 hnb cell2 h2 hc2

/-- Witness for the amended C2 at a concrete input: on `gNeighbors3`
(two neighbouring 3s inside two three-cell zones), `solve_step` reports the
same-neighbour-digit violation and the solver is unchanged. -/
theorem C2_neighbor_error_before_rules_witness :
    stepIsNeighboringError (solveStep 1 (Solver.new gNeighbors3)) = true ∧
      (solveStep 1 (Solver.new gNeighbors3)).solver = Solver.new gNeighbors3 := by
  obtain ⟨a, b, m, he⟩ := C2_neighbor_error_before_rules 1 (Solver.new gNeighbors3)
    (fun _ => by decide) (fun _ => by decide) ⟨0, 0⟩ ⟨0, 1⟩ 3
    ⟨'a', ⟨0, 0⟩, CellContent.Number 3⟩ ⟨'b', ⟨0, 1⟩, CellContent.Number 3⟩
    (by decide) (by decide) (by decide) (by decide) (by decide)
  rw [he]
  exact ⟨rfl, rfl⟩

/-- Counterexample to C2 as stated: `gNeighbors3TinyZones` has two
8-neighbouring cells pre-set to 3, yet `solve_step` reports
`ZoneWithUnexpectedNumber` (the zone-size check runs first), not the
same-neighbour-digit violation. -/
theorem C2_counterexample :
    (Solver.new gNeighbors3TinyZones).grid.get_cell ⟨0, 0⟩
        = some ⟨'a', ⟨0, 0⟩, CellContent.Number 3⟩ ∧
      (Solver.new gNeighbors3TinyZones).grid.get_cell ⟨0, 1⟩
        = some ⟨'b', ⟨0, 1⟩, CellContent.Number 3⟩ ∧
      ⟨0, 1⟩ ∈ neighboringLineColumns ⟨0, 0⟩
        (Solver.new gNeighbors3TinyZones).grid.min_line_column
        (Solver.new gNeighbors3TinyZones).grid.max_line_column ∧
      solveStep 1 (Solver.new gNeighbors3TinyZones)
        = ⟨Except.error (SolvingError.ZoneWithUnexpectedNumber 'a' ⟨0, 0⟩ 3),
           Solver.new gNeighbors3TinyZones, []⟩ ∧
      stepIsNeighboringError (solveStep 1 (Solver.new gNeighbors3TinyZones)) = false := by
  refine ⟨by decide, by decide, by decide, by decide, by decide⟩

theorem check_ok_split {s : Solver} (h : s.check = Except.ok ()) :
    checkInitial s = Except.ok () ∧ check_neighboring_cells s.grid = Except.ok () ∧
      check_zone_numbers s.grid = Except.ok () ∧
      check_cell_with_no_possible_values s.grid = Except.ok () := by
  unfold Solver.check at h
  rcases h1 : checkInitial s with e | u
  · simp only [h1] at h
    cases h
  · cases u
    simp only [h1] at h
    rcases h2 : check_neighboring_cells s.grid with e | u
    · simp only [h2] at h
      cases h
    · cases u
      simp only [h2] at h
      rcases h3 : check_zone_numbers s.grid with e | u
      · simp only [h3] at h
        cases h
      · cases u
        simp only [h3] at h
        exact ⟨rfl, rfl, rfl, h⟩

theorem checkInitial_ok_split {s : Solver} (hinit : s.init_cell_contents = false)
    (h : checkInitial s = Except.ok ()) :
    check_zone_too_long s.grid = Except.ok () ∧
      check_zone_with_unexpected_number s.grid = Except.ok () := by
  unfold checkInitial at h
  rw [if_pos hinit] at h
  rcases h1 : check_zone_too_long s.grid with e | u
  · simp only [h1] at h
    cases h
  · cases u
    simp only [h1] at h
    exact ⟨rfl, h⟩

theorem checkZoneTooLongGo_ok {l : List (Char × Zone)}
    (h : checkZoneTooLongGo l = Except.ok ()) :
    ∀ p ∈ l, p.2.set_line_column.length ≤ 9 := by
  induction l with
  | nil => intro p hp; simp at hp
  | cons q t ih =>
    intro p hp
    rcases q with ⟨c0, z0⟩
    by_cases hlen : 9 < z0.set_line_column.length
    · rw [checkZoneTooLongGo, if_pos hlen] at h
      cases h
    · rw [checkZoneTooLongGo, if_neg hlen] at h
      rcases List.mem_cons.mp hp with h1 | h1
      · subst h1
        exact Nat.le_of_not_lt hlen
      · exact ih h p h1

theorem fullCandidates_succ (k : Nat) :
    fullCandidates (k + 1) = (fullCandidates k).insert (k + 1) := by
  unfold fullCandidates
  rw [List.range_succ, List.foldl_append]
  rfl

theorem fullCandidates_contains {k : Nat} (hk : k ≤ 9) (d : Nat) :
    (fullCandidates k).contains d = true ↔ 1 ≤ d ∧ d ≤ k := by
  induction k with
  | zero =>
    show Simple09Set.empty.contains d = true ↔ _
    rw [Simple09Set.contains_empty]
    simp
    omega
  | succ k ih =>
    rw [fullCandidates_succ, Simple09Set.contains_insert]
    have hk9 : k ≤ 9 := by omega
    have hih := ih hk9
    constructor
    · intro h
      rcases Bool.or_eq_true_iff.mp h with h1 | h1
      · have := hih.mp h1
        omega
      · rcases Bool.and_eq_true_iff.mp h1 with ⟨h2, h3⟩
        have hd : d = k + 1 := of_decide_eq_true h2
        omega
    · intro h
      by_cases hd : d = k + 1
      · subst hd
        apply Bool.or_eq_true_iff.mpr
        right
        apply Bool.and_eq_true_iff.mpr
        refine ⟨decide_eq_true rfl, decide_eq_true (by omega)⟩
      · have h2 : 1 ≤ d ∧ d ≤ k := by omega
        apply Bool.or_eq_true_iff.mpr
        left
        exact hih.mpr h2

theorem alookup_zoneFullSets (zones : List (Char × Zone)) (c : Char) :
    alookup (zoneFullSets zones) c
      = (alookup zones c).map (fun z => fullCandidates z.set_line_column.length) := by
  unfold zoneFullSets
  exact alookup_map_value (fun (z : Zone) => fullCandidates z.set_line_column.length) zones c

/-- C3: on a consistent grid whose cells all name existing zones, the first
`solve_step` call (candidates not yet initialized) returns the
`InitPossibleNumbers` action, marks the solver initialized, replaces the
content of every `Undefined` cell by the candidate set of its zone — which
holds exactly the digits 1..N for the zone's size N — and leaves every cell
already holding a `Number` unchanged. -/
theorem C3_first_step_initializes (fuel : Nat) (s : Solver)
    (hchk : s.check = Except.ok ())
    (hinit : s.init_cell_contents = false)
    (hzwf : ∀ p ∈ s.grid.hashmap_cells, (alookup s.grid.hashmap_zones p.2.c_zone).isSome) :
    (solveStep fuel s).res = Except.ok SolvingAction.InitPossibleNumbers ∧
      (solveStep fuel s).solver.init_cell_contents = true ∧
      (∀ lc cell, s.grid.get_cell lc = some cell → cell.content = CellContent.Undefined →
        ∃ z, alookup s.grid.hashmap_zones cell.c_zone = some z ∧
          (solveStep fuel s).solver.grid.get_cell lc
            = some { cell with content :=
                CellContent.PossibleNumbers (fullCandidates z.set_line_column.length) } ∧
          ∀ d, (fullCandidates z.set_line_column.length).contains d = true ↔
            1 ≤ d ∧ d ≤ z.set_line_column.length) ∧
      (∀ lc cell n, s.grid.get_cell lc = some cell → cell.content = CellContent.Number n →
        (solveStep fuel s).solver.grid.get_cell lc = some cell) := by
  have hstep : solveStep fuel s =
      ⟨Except.ok SolvingAction.InitPossibleNumbers,
       (solve_step_possible_numbers { s with init_cell_contents := true }).solver, []⟩ := by
    unfold solveStep solveStepWith
    simp only [hchk, if_pos hinit]
    rfl
  have hget : ∀ lc, (solveStep fuel s).solver.grid.get_cell lc
      = (s.grid.get_cell lc).map (initCellContent (zoneFullSets s.grid.hashmap_zones)) := by
    intro lc
    rw [hstep]
    show alookup (initCells _ _) lc = _
    unfold initCells
    rw [alookup_map_value]
    rfl
  refine ⟨by rw [hstep], by rw [hstep]; rfl, ?_, ?_⟩
  · intro lc cell hlc hund
    have hz := hzwf (lc, cell) (alookup_mem hlc)
    rcases hzz : alookup s.grid.hashmap_zones cell.c_zone with _ | z
    · rw [hzz] at hz
      simp at hz
    · have hsize : z.set_line_column.length ≤ 9 := by
        have hparts := check_ok_split hchk
        have hzl := (checkInitial_ok_split hinit hparts.1).1
        exact checkZoneTooLongGo_ok hzl (cell.c_zone, z) (alookup_mem hzz)
      refine ⟨z, rfl, ?_, fun d => fullCandidates_contains hsize d⟩
      rw [hget lc, hlc]
      show some (initCellContent (zoneFullSets s.grid.hashmap_zones) cell) = _
      unfold initCellContent
      simp only [hund]
      rw [alookup_zoneFullSets, hzz]
      rfl
  · intro lc cell n hlc hnum
    rw [hget lc, hlc]
    show some (initCellContent (zoneFullSets s.grid.hashmap_zones) cell) = some cell
    unfold initCellContent
    simp only [hnum]

/-- Witness for C3 on the documentation example grid: the first step
initializes, cell `(0,1)` of the five-cell zone `b` receives candidates
`{1..5}` and the pre-set cell `(0,0)` (`a1`) is unchanged. -/
theorem C3_first_step_initializes_witness :
    (solveStep 1 (Solver.new gExample)).res = Except.ok SolvingAction.InitPossibleNumbers ∧
      (solveStep 1 (Solver.new gExample)).solver.init_cell_contents = true ∧
      ((solveStep 1 (Solver.new gExample)).solver.grid.get_cell ⟨0, 1⟩).map Cell.content
        = some (CellContent.PossibleNumbers (fullCandidates 5)) ∧
      ((solveStep 1 (Solver.new gExample)).solver.grid.get_cell ⟨0, 0⟩).map Cell.content
        = some (CellContent.Number 1) := by
  have h := C3_first_step_initializes 1 (Solver.new gExample) (by decide) (by decide) (by decide)
  refine ⟨h.1, h.2.1, ?_, ?_⟩
  · obtain ⟨z, hz, hcell, hiff⟩ :=
      h.2.2.1 ⟨0, 1⟩ ⟨'b', ⟨0, 1⟩, CellContent.Undefined⟩ (by decide) rfl
    have hzc : alookup (Solver.new gExample).grid.hashmap_zones 'b'
        = some ⟨'b', [⟨0, 1⟩, ⟨0, 2⟩, ⟨1, 0⟩, ⟨1, 1⟩, ⟨1, 2⟩]⟩ := by decide
    have hze : z = ⟨'b', [⟨0, 1⟩, ⟨0, 2⟩, ⟨1, 0⟩, ⟨1, 1⟩, ⟨1, 2⟩]⟩ := by
      have h2 := hz.symm.trans hzc
      injection h2
    subst hze
    rw [hcell]
    rfl
  · have h2 := h.2.2.2 ⟨0, 0⟩ ⟨'a', ⟨0, 0⟩, CellContent.Number 1⟩ 1 (by decide) rfl
    rw [h2]
    rfl

/-! ### Shape of each rule's actions -/

theorem tryDigitsWith_action {solveFn : Solver → SolveOut} {d : Int} {s1 : Solver}
    {lc : LineColumn} {vec_n l : List Nat} {a : SolvingAction} {s2 : Solver}
    (h : (tryDigitsWith solveFn d s1 lc vec_n l).1 = some (a, s2)) :
    (∃ n o, a = SolvingAction.TryAndFail lc n o) ∨
      (∃ n o, a = SolvingAction.TryAndSolve lc n o) := by
  induction l with
  | nil => simp [tryDigitsWith] at h
  | cons n ns ih =>
    rw [tryDigitsWith] at h
    rcases hsub : (solveFn { grid := s1.grid.setCellContent lc (CellContent.Number n), init_cell_contents := false, difficulty_level := DifficultyLevel.Unknown, max_try_and_see_recursion_level := s1.max_try_and_see_recursion_level, try_and_see_recursion_level := s1.try_and_see_recursion_level }).res with e | solved
    · rw [hsub] at h
      simp only at h
      injection h with h1
      injection h1 with h1 h2
      exact Or.inl ⟨n, _, h1.symm⟩
    · rw [hsub] at h
      by_cases hsv : solved = true
      · subst hsv
        simp only [if_pos rfl] at h
        injection h with h1
        injection h1 with h1 h2
        exact Or.inr ⟨n, _, h1.symm⟩
      · have hsv2 : solved = false := by
          rcases solved with _ | _
          · rfl
          · exact absurd rfl hsv
        subst hsv2
        simp only [Bool.false_eq_true, if_neg] at h
        exact ih h

theorem tryCellsWith_action {solveFn : Solver → SolveOut} {d : Int} {s1 : Solver}
    {entries : List (LineColumn × Simple09Set)} {a : SolvingAction} {s2 : Solver}
    (h : (tryCellsWith solveFn d s1 entries).1 = some (a, s2)) :
    (∃ lc n o, a = SolvingAction.TryAndFail lc n o) ∨
      (∃ lc n o, a = SolvingAction.TryAndSolve lc n o) := by
  induction entries with
  | nil => simp [tryCellsWith] at h
  | cons q t ih =>
    rcases q with ⟨lc0, set0⟩
    rw [tryCellsWith] at h
    rcases hd : (tryDigitsWith solveFn d s1 lc0 set0.as_vec_u8 set0.as_vec_u8).1 with _ | p
    · rw [hd] at h
      simp only at h
      exact ih h
    · rw [hd] at h
      simp only at h
      rcases p with ⟨a0, s0⟩
      injection h with h1
      injection h1 with h1 h2
      subst h1
      rcases tryDigitsWith_action hd with ⟨n, o, he⟩ | ⟨n, o, he⟩
      · exact Or.inl ⟨lc0, n, o, he⟩
      · exact Or.inr ⟨lc0, n, o, he⟩

theorem ruleOk_single : ruleOk (solve_single_possible_number, DifficultyLevel.Easy) := by
  refine ⟨?_, ?_, ?_, ?_⟩ <;> intro x <;>
    rcases hgo : singleGo x.grid.hashmap_cells with _ | ⟨cells, lc, n⟩ <;>
      simp [solve_single_possible_number, hgo, actionTag]

theorem ruleOk_in_zone : ruleOk (solve_numbers_in_zone, DifficultyLevel.Easy) := by
  refine ⟨?_, ?_, ?_, ?_⟩ <;> intro x <;>
    rcases hgo : inZoneGo (zonePlacedSets x.grid) x.grid.hashmap_cells
      with _ | ⟨cells, lc, cz, vec⟩ <;>
      simp [solve_numbers_in_zone, hgo, actionTag]

theorem ruleOk_only : ruleOk (solve_only_number_in_zone, DifficultyLevel.Easy) := by
  refine ⟨?_, ?_, ?_, ?_⟩ <;> intro x <;>
    rcases hgo : findZoneOnly (List.map
      (fun p => (p.1, zoneOnlyMap x.grid p.2.set_line_column)) x.grid.hashmap_zones)
      with _ | ⟨c, n, lc⟩ <;>
      simp [solve_only_number_in_zone, hgo, actionTag]

theorem ruleOk_neighboring : ruleOk (solve_numbers_neighboring, DifficultyLevel.Medium) := by
  refine ⟨?_, ?_, ?_, ?_⟩ <;> intro x <;>
    rcases hgo : neighborScan x.grid (possibleCellsVec x.grid.hashmap_cells)
      with _ | ⟨lc, alc, nset, vec⟩ <;>
      simp [solve_numbers_neighboring, hgo, actionTag]

theorem ruleOk_dual : ruleOk (solve_dual_values_pair, DifficultyLevel.Hard) := by
  refine ⟨?_, ?_, ?_, ?_⟩ <;> intro x <;>
    rcases hgo : dualScanA x.grid (pairCellsMap x.grid.hashmap_cells)
      (pairCellsMap x.grid.hashmap_cells) with _ | ⟨lcA, lcB, lcC, nset, vec⟩ <;>
      simp [solve_dual_values_pair, hgo, actionTag]

theorem tryWith_eq_pos (solveFn : Solver → SolveOut) (x : Solver)
    (hguard : x.max_try_and_see_recursion_level ≤ x.try_and_see_recursion_level) :
    solve_try_and_seeWith solveFn x = ⟨SolvingAction.NoAction, x, []⟩ := by
  unfold solve_try_and_seeWith
  rw [if_pos hguard]

theorem tryWith_eq_neg (solveFn : Solver → SolveOut) (x : Solver)
    (hguard : ¬ x.max_try_and_see_recursion_level ≤ x.try_and_see_recursion_level) :
    solve_try_and_seeWith solveFn x =
      (match (tryCellsWith solveFn x.try_and_see_recursion_level
          { x with try_and_see_recursion_level := x.try_and_see_recursion_level + 1 }
          (pairCellsMap x.grid.hashmap_cells)).1 with
        | some p => ⟨p.1, p.2,
            (tryCellsWith solveFn x.try_and_see_recursion_level
              { x with try_and_see_recursion_level := x.try_and_see_recursion_level + 1 }
              (pairCellsMap x.grid.hashmap_cells)).2⟩
        | none =>
            ⟨SolvingAction.NoAction,
              { x with try_and_see_recursion_level := x.try_and_see_recursion_level + 1 - 1 },
              (tryCellsWith solveFn x.try_and_see_recursion_level
                { x with try_and_see_recursion_level := x.try_and_see_recursion_level + 1 }
                (pairCellsMap x.grid.hashmap_cells)).2⟩) := by
  unfold solve_try_and_seeWith
  rw [if_neg hguard]

theorem ruleOk_tryWith (solveFn : Solver → SolveOut) :
    ruleOk (solve_try_and_seeWith solveFn, DifficultyLevel.VeryHard) := by
  refine ⟨?_, ?_, ?_, ?_⟩ <;> dsimp only <;> intro x <;>
    by_cases hguard : x.max_try_and_see_recursion_level ≤ x.try_and_see_recursion_level
  case pos =>
    rw [tryWith_eq_pos solveFn x hguard]
    intro _
    rfl
  case neg =>
    rw [tryWith_eq_neg solveFn x hguard]
    rcases htc : (tryCellsWith solveFn x.try_and_see_recursion_level
        { x with try_and_see_recursion_level := x.try_and_see_recursion_level + 1 }
        (pairCellsMap x.grid.hashmap_cells)).1 with _ | p
    · intro _
      show Solver.mk _ _ _ _ _ = x
      rcases x with ⟨g, i, df, mx, lv⟩
      simp
    · rcases p with ⟨a0, s0⟩
      intro h
      have h2 : a0 = SolvingAction.NoAction := h
      rcases tryCellsWith_action htc with ⟨lc, n, o, he⟩ | ⟨lc, n, o, he⟩ <;>
        · rw [he] at h2
          cases h2
  case pos =>
    rw [tryWith_eq_pos solveFn x hguard]
    intro h
    simp at h
  case neg =>
    rw [tryWith_eq_neg solveFn x hguard]
    rcases htc : (tryCellsWith solveFn x.try_and_see_recursion_level
        { x with try_and_see_recursion_level := x.try_and_see_recursion_level + 1 }
        (pairCellsMap x.grid.hashmap_cells)).1 with _ | p
    · intro h
      simp at h
    · rcases p with ⟨a0, s0⟩
      intro _
      show actionTag a0 = some DifficultyLevel.VeryHard
      rcases tryCellsWith_action htc with ⟨lc, n, o, he⟩ | ⟨lc, n, o, he⟩ <;>
        simp [he, actionTag]
  case pos =>
    rw [tryWith_eq_pos solveFn x hguard]
  case neg =>
    rw [tryWith_eq_neg solveFn x hguard]
    rcases htc : (tryCellsWith solveFn x.try_and_see_recursion_level
        { x with try_and_see_recursion_level := x.try_and_see_recursion_level + 1 }
        (pairCellsMap x.grid.hashmap_cells)).1 with _ | p
    · rfl
    · rcases p with ⟨a0, s0⟩
      show s0.difficulty_level = x.difficulty_level
      rcases tryCellsWith_some htc with ⟨lc, st, n, hm, he⟩
      rw [he]
  case pos =>
    rw [tryWith_eq_pos solveFn x hguard]
    exact ⟨by simp, by simp⟩
  case neg =>
    rw [tryWith_eq_neg solveFn x hguard]
    rcases htc : (tryCellsWith solveFn x.try_and_see_recursion_level
        { x with try_and_see_recursion_level := x.try_and_see_recursion_level + 1 }
        (pairCellsMap x.grid.hashmap_cells)).1 with _ | p
    · exact ⟨by simp, by simp⟩
    · rcases p with ⟨a0, s0⟩
      refine ⟨?_, ?_⟩ <;>
        · show ¬ a0 = _
          rcases tryCellsWith_action htc with ⟨lc, n, o, he⟩ | ⟨lc, n, o, he⟩ <;>
            simp [he]

/-! ### Characterizing one pass over the rule list -/

theorem applyRules_cons_noaction (s : Solver) (f : Solver → RuleOut)
    (d : DifficultyLevel) (t : List ((Solver → RuleOut) × DifficultyLevel))
    (hA : (f s).action = SolvingAction.NoAction) :
    applyRules s ((f, d) :: t) =
      ⟨(applyRules (f s).solver t).action, (applyRules (f s).solver t).solver,
        (f s).tsLog ++ (applyRules (f s).solver t).tsLog⟩ := by
  simp only [applyRules]
  rw [hA]

theorem applyRules_cons_fired (s : Solver) (f : Solver → RuleOut)
    (d : DifficultyLevel) (t : List ((Solver → RuleOut) × DifficultyLevel))
    (hA : (f s).action ≠ SolvingAction.NoAction) :
    applyRules s ((f, d) :: t) =
      ⟨(f s).action,
        { (f s).solver with
          difficulty_level := (f s).solver.difficulty_level.dmax d },
        (f s).tsLog⟩ := by
  simp only [applyRules]

theorem applyRules_cases (s : Solver)
    (l : List ((Solver → RuleOut) × DifficultyLevel))
    (hno : ∀ q ∈ l, ∀ x, (q.1 x).action = SolvingAction.NoAction →
      (q.1 x).solver = x) :
    ((applyRules s l).action = SolvingAction.NoAction ∧
      (applyRules s l).solver = s ∧
      (∀ q ∈ l, (q.1 s).action = SolvingAction.NoAction)) ∨
    (∃ l1 p l2, l = l1 ++ p :: l2 ∧
      (∀ q ∈ l1, (q.1 s).action = SolvingAction.NoAction) ∧
      (p.1 s).action ≠ SolvingAction.NoAction ∧
      (applyRules s l).action = (p.1 s).action ∧
      (applyRules s l).solver =
        { (p.1 s).solver with
          difficulty_level := ((p.1 s).solver).difficulty_level.dmax p.2 }) := by
  induction l with
  | nil =>
    left
    exact ⟨rfl, rfl, by simp⟩
  | cons q t ih =>
    rcases q with ⟨f, d⟩
    by_cases hA : (f s).action = SolvingAction.NoAction
    · have hs : (f s).solver = s :=
        hno (f, d) (List.mem_cons_self _ _) s hA
      have happ := applyRules_cons_noaction s f d t hA
      rw [hs] at happ
      have hno' : ∀ q ∈ t, ∀ x, (q.1 x).action = SolvingAction.NoAction →
          (q.1 x).solver = x := fun q hq => hno q (List.mem_cons_of_mem _ hq)
      rcases ih hno' with ⟨h1, h2, h3⟩ | ⟨l1, p, l2, heq, hl1, hp, hact, hsol⟩
      · left
        refine ⟨?_, ?_, ?_⟩
        · rw [happ]
          exact h1
        · rw [happ]
          exact h2
        · intro q hq
          rcases List.mem_cons.1 hq with hq1 | hq2
          · rw [hq1]
            exact hA
          · exact h3 q hq2
      · right
        refine ⟨(f, d) :: l1, p, l2, by rw [heq, List.cons_append], ?_, hp, ?_, ?_⟩
        · intro q hq
          rcases List.mem_cons.1 hq with hq1 | hq2
          · rw [hq1]
            exact hA
          · exact hl1 q hq2
        · rw [happ]
          exact hact
        · rw [happ]
          exact hsol
    · right
      have happ := applyRules_cons_fired s f d t hA
      refine ⟨[], (f, d), t, rfl, by simp, hA, ?_, ?_⟩
      · rw [happ]
      · rw [happ]

theorem vec_head_ruleOk : ∀ q ∈ vec_of_functions_head, ruleOk q := by
  intro q hq
  simp only [vec_of_functions_head, List.mem_cons, List.not_mem_nil, or_false] at hq
  rcases hq with h | h | h | h | h
  · rw [h]
    exact ruleOk_single
  · rw [h]
    exact ruleOk_in_zone
  · rw [h]
    exact ruleOk_only
  · rw [h]
    exact ruleOk_neighboring
  · rw [h]
    exact ruleOk_dual

theorem rulesPhaseWith_spec (solveFn : Solver → SolveOut) (s : Solver) :
    ∃ a, (rulesPhaseWith solveFn s).res = Except.ok a ∧
      a ≠ SolvingAction.Solved ∧ a ≠ SolvingAction.InitPossibleNumbers ∧
      (rulesPhaseWith solveFn s).solver.difficulty_level =
        tagFold s.difficulty_level a ∧
      (a = SolvingAction.NoAction → (rulesPhaseWith solveFn s).solver = s) := by
  have hno : ∀ q ∈ vec_of_functions_head, ∀ x,
      (q.1 x).action = SolvingAction.NoAction → (q.1 x).solver = x :=
    fun q hq => (vec_head_ruleOk q hq).1
  have htry := ruleOk_tryWith solveFn
  rcases applyRules_cases s vec_of_functions_head hno with
    ⟨h1, h2, h3⟩ | ⟨l1, p, l2, heq, hl1, hp, hact, hsol⟩
  · simp only [rulesPhaseWith]
    rw [h1, h2]
    by_cases h6 : (solve_try_and_seeWith solveFn s).action = SolvingAction.NoAction
    · rw [h6]
      refine ⟨SolvingAction.NoAction, rfl, by simp, by simp, ?_, ?_⟩
      · rw [htry.1 s h6]
        rfl
      · intro _
        show (solve_try_and_seeWith solveFn s).solver = s
        exact htry.1 s h6
    · have htag := htry.2.1 s h6
      have hdiff := htry.2.2.1 s
      cases h6a : (solve_try_and_seeWith solveFn s).action <;>
        first
          | exact absurd h6a h6
          | exact absurd h6a (htry.2.2.2 s).1
          | exact absurd h6a (htry.2.2.2 s).2
          | (refine ⟨_, rfl, by simp, by simp, ?_, by simp⟩
             show (solve_try_and_seeWith solveFn s).solver.difficulty_level.dmax
                 DifficultyLevel.VeryHard = tagFold s.difficulty_level _
             rw [hdiff]
             rfl)
          | (rw [h6a] at htag
             simp [actionTag] at htag)
  · have hmem : p ∈ vec_of_functions_head := by
      rw [heq]
      exact List.mem_append.2 (Or.inr (List.mem_cons_self _ _))
    have hrok := vec_head_ruleOk p hmem
    have htag := hrok.2.1 s hp
    have hdiff := hrok.2.2.1 s
    simp only [rulesPhaseWith]
    rw [hact, hsol]
    cases hpa : (p.1 s).action <;>
      first
        | exact absurd hpa hp
        | exact absurd hpa (hrok.2.2.2 s).1
        | exact absurd hpa (hrok.2.2.2 s).2
        | (rw [hpa] at htag
           refine ⟨_, rfl, by simp, by simp, ?_, by simp⟩
           show (p.1 s).solver.difficulty_level.dmax p.2 = tagFold s.difficulty_level _
           rw [hdiff]
           simp only [tagFold, htag])

theorem solveStepWith_solved_inv (solveFn : Solver → SolveOut) (s : Solver)
    (h : (solveStepWith solveFn s).res = Except.ok SolvingAction.Solved) :
    s.check = Except.ok () ∧ s.init_cell_contents = true ∧ s.is_solved = true ∧
      solveStepWith solveFn s = ⟨Except.ok SolvingAction.Solved, s, []⟩ := by
  unfold solveStepWith at h ⊢
  rcases hc : s.check with e | u
  · simp [hc] at h
  · cases u
    by_cases hi : s.init_cell_contents = false
    · simp only [hc] at h
      rw [hi] at h
      simp [solve_step_possible_numbers] at h
    · have hi' : s.init_cell_contents = true := by
        rcases hb : s.init_cell_contents
        · exact absurd hb hi
        · rfl
      by_cases hs : s.is_solved = true
      · refine ⟨rfl, hi', hs, ?_⟩
        simp [hc, hi', hs]
      · have hs' : s.is_solved = false := by
          rcases hb : s.is_solved
          · rfl
          · exact absurd hb hs
        simp only [hc, hi', hs'] at h
        simp only [Bool.true_eq_false, if_neg, if_false, Bool.false_eq_true] at h
        rcases rulesPhaseWith_spec solveFn s with ⟨a, hres, hns, _, _, _⟩
        rw [hres] at h
        injection h with h1
        exact absurd h1 hns

theorem solveStepWith_of_solved (solveFn : Solver → SolveOut) (s : Solver)
    (hc : s.check = Except.ok ()) (hi : s.init_cell_contents = true)
    (hs : s.is_solved = true) :
    solveStepWith solveFn s = ⟨Except.ok SolvingAction.Solved, s, []⟩ := by
  unfold solveStepWith
  simp [hc, hi, hs]

/-- **C7**: if a `solve_step` call on a solver returns the `Solved` action,
then a second `solve_step` call on the resulting solver again returns
`Solved` and leaves the solver — in particular its grid — unchanged
(idempotence at the terminal state). -/
theorem C7_solved_idempotent (f1 f2 : Nat) (s : Solver)
    (h : (solveStep f1 s).res = Except.ok SolvingAction.Solved) :
    (solveStep f2 ((solveStep f1 s).solver)).res = Except.ok SolvingAction.Solved ∧
      (solveStep f2 ((solveStep f1 s).solver)).solver = (solveStep f1 s).solver := by
  have hinv := solveStepWith_solved_inv (fun s2 => solve f1 [] s2) s h
  have heq : solveStep f1 s = ⟨Except.ok SolvingAction.Solved, s, []⟩ := hinv.2.2.2
  have h2 : solveStep f2 s = ⟨Except.ok SolvingAction.Solved, s, []⟩ :=
    solveStepWith_of_solved (fun s2 => solve f2 [] s2) s hinv.1 hinv.2.1 hinv.2.2.1
  rw [heq]
  show (solveStep f2 s).res = Except.ok SolvingAction.Solved ∧
    (solveStep f2 s).solver = s
  rw [h2]
  exact ⟨rfl, rfl⟩

theorem C7_solved_idempotent_witness :
    (solveStep 1 sSolved).res = Except.ok SolvingAction.Solved ∧
      ((solveStep 1 ((solveStep 1 sSolved).solver)).res =
          Except.ok SolvingAction.Solved ∧
        (solveStep 1 ((solveStep 1 sSolved).solver)).solver =
          (solveStep 1 sSolved).solver) :=
  ⟨by decide, C7_solved_idempotent 1 1 sSolved (by decide)⟩

theorem solveStepWith_error_inv (solveFn : Solver → SolveOut) (s : Solver)
    (e : SolvingError)
    (h : (solveStepWith solveFn s).res = Except.error e) :
    solveStepWith solveFn s = ⟨Except.error e, s, []⟩ := by
  unfold solveStepWith at h ⊢
  rcases hc : s.check with e2 | u
  · simp only [hc] at h
    have h2 : (Except.error e2 : Except SolvingError SolvingAction) = Except.error e := h
    injection h2 with h3
    rw [h3]
  · cases u
    by_cases hi : s.init_cell_contents = false
    · simp only [hc] at h
      rw [hi] at h
      simp at h
    · have hi' : s.init_cell_contents = true := by
        rcases hb : s.init_cell_contents
        · exact absurd hb hi
        · rfl
      by_cases hs : s.is_solved = true
      · simp [hc, hi', hs] at h
      · have hs' : s.is_solved = false := by
          rcases hb : s.is_solved
          · rfl
          · exact absurd hb hs
        simp only [hc, hi', hs', Bool.true_eq_false, if_neg, if_false,
          Bool.false_eq_true] at h
        rcases rulesPhaseWith_spec solveFn s with ⟨a, hres, _, _, _, _⟩
        rw [hres] at h
        cases h

theorem solveStepWith_difficulty (solveFn : Solver → SolveOut) (s : Solver)
    (a : SolvingAction)
    (h : (solveStepWith solveFn s).res = Except.ok a) :
    (solveStepWith solveFn s).solver.difficulty_level =
      tagFold s.difficulty_level a := by
  unfold solveStepWith at h ⊢
  rcases hc : s.check with e | u
  · simp [hc] at h
  · cases u
    by_cases hi : s.init_cell_contents = false
    · simp only [hc] at h
      rw [hi] at h
      simp only [if_pos] at h ⊢
      rw [hi]
      simp only [if_pos]
      have h2 : SolvingAction.InitPossibleNumbers = a := by
        simpa [solve_step_possible_numbers] using h
      rw [← h2]
      simp [solve_step_possible_numbers, tagFold, actionTag]
    · have hi' : s.init_cell_contents = true := by
        rcases hb : s.init_cell_contents
        · exact absurd hb hi
        · rfl
      by_cases hs : s.is_solved = true
      · simp only [hc, hi', hs] at h
        simp only [hi', hs]
        have h2 : SolvingAction.Solved = a := by simpa using h
        rw [← h2]
        simp [tagFold, actionTag]
      · have hs' : s.is_solved = false := by
          rcases hb : s.is_solved
          · rfl
          · exact absurd hb hs
        simp only [hc, hi', hs', Bool.true_eq_false, if_neg, if_false,
          Bool.false_eq_true] at h
        simp only [hi', hs', Bool.true_eq_false, if_neg, if_false,
          Bool.false_eq_true]
        rcases rulesPhaseWith_spec solveFn s with ⟨a2, hres, _, _, hdf, _⟩
        rw [hres] at h
        injection h with h1
        rw [← h1]
        exact hdf

theorem solveLoop_difficulty (fuel : Nat) (s : Solver) :
    (solveLoop fuel s).solver.difficulty_level =
      List.foldl tagFold s.difficulty_level (solveLoop fuel s).actions := by
  induction fuel generalizing s with
  | zero => rfl
  | succ n ih =>
    simp only [solveLoop]
    rcases hst : (solveStepWith (fun s2 => solveLoop n { s2 with max_try_and_see_recursion_level := get_max_try_and_see_recursion_level [] DEFAULT_MAX_TRY_AND_SEE_RECURSION_LEVEL }) s).res with e | a
    · have hinv := solveStepWith_error_inv _ s e hst
      dsimp only
      rw [hinv]
      rfl
    · cases a <;>
        first
          | (dsimp only
             rw [solveStepWith_difficulty _ s _ hst]
             rfl)
          | (dsimp only
             rw [ih, solveStepWith_difficulty _ s _ hst, List.foldl_cons])

theorem dle_tagFold (d : DifficultyLevel) (a : SolvingAction) :
    d.dle (tagFold d a) := by
  unfold tagFold
  rcases ht : actionTag a with _ | t
  · exact Nat.le_refl _
  · show d.dle (d.dmax t)
    cases d <;> cases t <;> decide

theorem solveStep_difficulty_monotone (fuel : Nat) (s : Solver) :
    s.difficulty_level.dle ((solveStep fuel s).solver.difficulty_level) := by
  rcases hr : (solveStep fuel s).res with e | a
  · have hinv := solveStepWith_error_inv (fun s2 => solve fuel [] s2) s e hr
    have h2 : (solveStep fuel s).solver = s := by
      show (solveStepWith (fun s2 => solve fuel [] s2) s).solver = s
      rw [hinv]
    rw [h2]
    exact Nat.le_refl _
  · have hd := solveStepWith_difficulty (fun s2 => solve fuel [] s2) s a hr
    have h2 : (solveStep fuel s).solver.difficulty_level =
        tagFold s.difficulty_level a := hd
    rw [h2]
    exact dle_tagFold s.difficulty_level a

theorem foldl_tagFold_easy (l : List SolvingAction) (d : DifficultyLevel)
    (hd : d.toNat ≤ 1)
    (hl : ∀ a ∈ l, actionTag a = none ∨ actionTag a = some DifficultyLevel.Easy) :
    (List.foldl tagFold d l).toNat ≤ 1 := by
  induction l generalizing d with
  | nil => exact hd
  | cons a t ih =>
    rw [List.foldl_cons]
    refine ih (tagFold d a) ?_ (fun a2 ha2 => hl a2 (List.mem_cons_of_mem _ ha2))
    rcases hl a (List.mem_cons_self _ _) with h | h
    · unfold tagFold
      rw [h]
      exact hd
    · unfold tagFold
      rw [h]
      cases d
      · decide
      · decide
      · exact absurd hd (by decide)
      · exact absurd hd (by decide)
      · exact absurd hd (by decide)

/-- **C8**: across a run of `solve` on a fresh solver the difficulty level
equals the fold of the difficulty tags of the fired rules' actions over the
initial `Unknown` level — i.e. the maximum tag seen (`Easy` for
`SinglePossibleNumber`/`NumbersInZone`/`OnlyNumberInZone`, `Medium` for
`NumbersNeighboring`, `Hard` for `DualValuesPair`, `VeryHard` for
try-and-see); each `solve_step` call never decreases the difficulty; and a
run whose actions are all untagged or tagged `Easy` (only the first three
rules fired) never reports `Hard` or `VeryHard`. -/
theorem C8_difficulty_max_of_tags (fuel : Nat) (options : List SolvingOption)
    (g : Grid) (fuel2 : Nat) (s : Solver) :
    ((solve fuel options (Solver.new g)).solver.difficulty_level =
        List.foldl tagFold DifficultyLevel.Unknown
          (solve fuel options (Solver.new g)).actions) ∧
      s.difficulty_level.dle ((solveStep fuel2 s).solver.difficulty_level) ∧
      ((∀ a ∈ (solve fuel options (Solver.new g)).actions,
          actionTag a = none ∨ actionTag a = some DifficultyLevel.Easy) →
        (solve fuel options (Solver.new g)).solver.difficulty_level ≠
            DifficultyLevel.Hard ∧
          (solve fuel options (Solver.new g)).solver.difficulty_level ≠
            DifficultyLevel.VeryHard) := by
  have h1 : (solve fuel options (Solver.new g)).solver.difficulty_level =
      List.foldl tagFold DifficultyLevel.Unknown
        (solve fuel options (Solver.new g)).actions :=
    solveLoop_difficulty fuel _
  refine ⟨h1, solveStep_difficulty_monotone fuel2 s, ?_⟩
  intro hl
  have hb := foldl_tagFold_easy _ DifficultyLevel.Unknown (by decide) hl
  rw [← h1] at hb
  constructor <;> intro hEq <;> rw [hEq] at hb <;> exact absurd hb (by decide)

theorem C8_difficulty_max_of_tags_witness :
    ((solve 3 [] (Solver.new gOneCell)).solver.difficulty_level =
        List.foldl tagFold DifficultyLevel.Unknown
          (solve 3 [] (Solver.new gOneCell)).actions) ∧
      sSolved.difficulty_level.dle
        ((solveStep 1 sSolved).solver.difficulty_level) ∧
      ((solve 3 [] (Solver.new gOneCell)).solver.difficulty_level ≠
          DifficultyLevel.Hard ∧
        (solve 3 [] (Solver.new gOneCell)).solver.difficulty_level ≠
          DifficultyLevel.VeryHard) := by
  have h := C8_difficulty_max_of_tags 3 [] gOneCell 1 sSolved
  exact ⟨h.1, h.2.1, h.2.2 (by decide)⟩

theorem rulesPhaseWith_order (solveFn : Solver → SolveOut) (s : Solver) :
    ((∀ q ∈ vec_of_functions_head ++
          [(solve_try_and_seeWith solveFn, DifficultyLevel.VeryHard)],
        (q.1 s).action = SolvingAction.NoAction) ∧
      (rulesPhaseWith solveFn s).res = Except.ok SolvingAction.NoAction ∧
      (rulesPhaseWith solveFn s).solver = s) ∨
    (∃ l1 p l2, vec_of_functions_head ++
          [(solve_try_and_seeWith solveFn, DifficultyLevel.VeryHard)] =
        l1 ++ p :: l2 ∧
      (∀ q ∈ l1, (q.1 s).action = SolvingAction.NoAction) ∧
      (p.1 s).action ≠ SolvingAction.NoAction ∧
      (rulesPhaseWith solveFn s).res = Except.ok ((p.1 s).action) ∧
      (rulesPhaseWith solveFn s).solver =
        { (p.1 s).solver with
          difficulty_level := (p.1 s).solver.difficulty_level.dmax p.2 }) := by
  have hno : ∀ q ∈ vec_of_functions_head, ∀ x,
      (q.1 x).action = SolvingAction.NoAction → (q.1 x).solver = x :=
    fun q hq => (vec_head_ruleOk q hq).1
  have htry := ruleOk_tryWith solveFn
  rcases applyRules_cases s vec_of_functions_head hno with
    ⟨h1, h2, h3⟩ | ⟨l1, p, l2, heq, hl1, hp, hact, hsol⟩
  · simp only [rulesPhaseWith]
    rw [h1, h2]
    by_cases h6 : (solve_try_and_seeWith solveFn s).action = SolvingAction.NoAction
    · left
      rw [h6]
      refine ⟨?_, rfl, htry.1 s h6⟩
      intro q hq
      rcases List.mem_append.1 hq with hq1 | hq2
      · exact h3 q hq1
      · rcases List.mem_singleton.1 hq2 with rfl
        exact h6
    · right
      refine ⟨vec_of_functions_head,
        (solve_try_and_seeWith solveFn, DifficultyLevel.VeryHard), [], rfl,
        h3, h6, ?_, ?_⟩ <;>
        · cases h6a : (solve_try_and_seeWith solveFn s).action <;>
            first
              | exact absurd h6a h6
              | exact absurd h6a (htry.2.2.2 s).1
              | exact absurd h6a (htry.2.2.2 s).2
              | rfl
  · have hmem : p ∈ vec_of_functions_head := by
      rw [heq]
      exact List.mem_append.2 (Or.inr (List.mem_cons_self _ _))
    have hrok := vec_head_ruleOk p hmem
    right
    refine ⟨l1, p, l2 ++ [(solve_try_and_seeWith solveFn, DifficultyLevel.VeryHard)],
      by rw [heq, List.append_assoc, List.cons_append], hl1, hp, ?_, ?_⟩ <;>
      · simp only [rulesPhaseWith]
        rw [hact, hsol]
        cases hpa : (p.1 s).action <;>
          first
            | exact absurd hpa hp
            | exact absurd hpa (hrok.2.2.2 s).1
            | exact absurd hpa (hrok.2.2.2 s).2
            | rfl

/-- **C4**: on an initialized, unsolved state passing the consistency
check, `solve_step` attempts the rules in the fixed priority order of
`vec_of_functions` (`SinglePossibleNumber`, `NumbersInZone`,
`OnlyNumberInZone`, `NumbersNeighboring`, `DualValuesPair`, try-and-see):
every rule before the first one that acts reports `NoAction` and leaves the
solver untouched, the step returns exactly the first acting rule's action
and its solver (with the difficulty tag folded in), and if no rule acts the
step returns `NoAction` with the solver unchanged. -/
theorem C4_rule_priority (fuel : Nat) (s : Solver)
    (hc : s.check = Except.ok ()) (hi : s.init_cell_contents = true)
    (hs : s.is_solved = false) :
    ((∀ q ∈ vec_of_functions fuel, (q.1 s).action = SolvingAction.NoAction) ∧
      (solveStep fuel s).res = Except.ok SolvingAction.NoAction ∧
      (solveStep fuel s).solver = s) ∨
    (∃ l1 p l2, vec_of_functions fuel = l1 ++ p :: l2 ∧
      (∀ q ∈ l1, (q.1 s).action = SolvingAction.NoAction) ∧
      (p.1 s).action ≠ SolvingAction.NoAction ∧
      (solveStep fuel s).res = Except.ok ((p.1 s).action) ∧
      (solveStep fuel s).solver =
        { (p.1 s).solver with
          difficulty_level := (p.1 s).solver.difficulty_level.dmax p.2 }) := by
  have hstep : solveStep fuel s =
      rulesPhaseWith (fun s2 => solve fuel [] s2) s := by
    show solveStepWith (fun s2 => solve fuel [] s2) s = _
    unfold solveStepWith
    simp [hc, hi, hs]
  rw [hstep]
  exact rulesPhaseWith_order (fun s2 => solve fuel [] s2) s

theorem C4_rule_priority_witness :
    ((∀ q ∈ vec_of_functions 1, (q.1 sShrink).action = SolvingAction.NoAction) ∧
      (solveStep 1 sShrink).res = Except.ok SolvingAction.NoAction ∧
      (solveStep 1 sShrink).solver = sShrink) ∨
    (∃ l1 p l2, vec_of_functions 1 = l1 ++ p :: l2 ∧
      (∀ q ∈ l1, (q.1 sShrink).action = SolvingAction.NoAction) ∧
      (p.1 sShrink).action ≠ SolvingAction.NoAction ∧
      (solveStep 1 sShrink).res = Except.ok ((p.1 sShrink).action) ∧
      (solveStep 1 sShrink).solver =
        { (p.1 sShrink).solver with
          difficulty_level :=
            (p.1 sShrink).solver.difficulty_level.dmax p.2 }) :=
  C4_rule_priority 1 sShrink (by decide) (by decide) (by decide)

/-- **C5**: refuted. The ghost log `tsLog` records the solver's current
recursion depth each time a speculative try-and-see attempt starts. With
the configured maximum depth 1, solving the two-domino grid starts an
attempt at depth 1 — i.e. at a depth not below the configured maximum —
because each speculative sub-solve (`new_solver.solve(&[])` in the source)
resets the clone's maximum to the default 3, discarding the configured
bound for all nested attempts. With maximum 0, the top-level guard fires
before any attempt, so 0 does disable try-and-see as claimed. -/
theorem C5_depth_bound_violated :
    (∃ d ∈ (solve 6 [SolvingOption.MaxTryAndSeeRecursionLevel 1]
        (Solver.new gTwoDominoes)).tsLog, (1 : Int) ≤ d) ∧
      (solve 6 [SolvingOption.MaxTryAndSeeRecursionLevel 0]
        (Solver.new gTwoDominoes)).tsLog = [] := by decide

/-! ### What a passing consistency check guarantees about the grid -/

theorem checkZoneNumbersCells_ok {g : Grid} {c : Char} {l : List LineColumn}
    {acc : Simple09Set}
    (h : checkZoneNumbersCells g c acc l = Except.ok ()) :
    (zoneNumbers9 g l).Nodup ∧
      ∀ m ∈ zoneNumbers9 g l, acc.contains m = false := by
  induction l generalizing acc with
  | nil => exact ⟨List.nodup_nil, by simp [zoneNumbers9]⟩
  | cons lc t ih =>
    rcases hg : g.get_cell lc with _ | cell
    · have hzn : zoneNumbers9 g (lc :: t) = zoneNumbers9 g t := by
        simp [zoneNumbers9, hg]
      simp only [checkZoneNumbersCells, hg] at h
      rw [hzn]
      exact ih h
    · rcases hct : cell.content with _ | n | set
      · have hzn : zoneNumbers9 g (lc :: t) = zoneNumbers9 g t := by
          simp [zoneNumbers9, hg, hct]
        simp only [checkZoneNumbersCells, hg, hct] at h
        rw [hzn]
        exact ih h
      · simp only [checkZoneNumbersCells, hg, hct] at h
        by_cases hn : n ≤ 9
        · have hzn : zoneNumbers9 g (lc :: t) = n :: zoneNumbers9 g t := by
            simp [zoneNumbers9, hg, hct, hn]
          rcases hcon : acc.contains n
          · rw [hcon] at h
            simp only [Bool.false_eq_true, if_neg, if_false] at h
            obtain ⟨hnd, hacc⟩ := ih h
            rw [hzn]
            constructor
            · refine List.nodup_cons.2 ⟨?_, hnd⟩
              intro hmem
              have h2 := hacc n hmem
              rw [Simple09Set.contains_insert] at h2
              simp [hn] at h2
            · intro m hm
              rcases List.mem_cons.1 hm with rfl | hm2
              · exact hcon
              · have h2 := hacc m hm2
                rw [Simple09Set.contains_insert] at h2
                simp at h2
                exact h2.1
          · rw [hcon] at h
            simp at h
        · have hgt : 9 < n := by omega
          have hzn : zoneNumbers9 g (lc :: t) = zoneNumbers9 g t := by
            simp [zoneNumbers9, hg, hct, hn]
          have hcon := Simple09Set.contains_of_gt9 acc hgt
          rw [hcon] at h
          simp only [Bool.false_eq_true, if_neg, if_false] at h
          obtain ⟨hnd, hacc⟩ := ih h
          rw [hzn]
          refine ⟨hnd, fun m hm => ?_⟩
          have h2 := hacc m hm
          rw [Simple09Set.contains_insert] at h2
          simp at h2
          exact h2.1
      · have hzn : zoneNumbers9 g (lc :: t) = zoneNumbers9 g t := by
          simp [zoneNumbers9, hg, hct]
        simp only [checkZoneNumbersCells, hg, hct] at h
        rw [hzn]
        exact ih h

theorem checkZoneNumbersGo_ok {g : Grid} {zs : List (Char × Zone)}
    (h : checkZoneNumbersGo g zs = Except.ok ()) :
    ∀ c z, (c, z) ∈ zs → (zoneNumbers9 g z.set_line_column).Nodup := by
  induction zs with
  | nil =>
    intro c z hm
    simp at hm
  | cons q t ih =>
    intro c z hm
    rcases q with ⟨c0, z0⟩
    rcases hcc : checkZoneNumbersCells g c0 Simple09Set.empty z0.set_line_column
      with e | u
    · simp only [checkZoneNumbersGo, hcc] at h
      cases h
    · cases u
      simp only [checkZoneNumbersGo, hcc] at h
      rcases List.mem_cons.1 hm with h1 | h1
      · injection h1 with hc hz
        subst hz
        exact (checkZoneNumbersCells_ok hcc).1
      · exact ih h c z h1

theorem checkZoneUnexpectedCells_ok {g : Grid} {c : Char} {zl : Nat}
    {l : List LineColumn}
    (h : checkZoneUnexpectedCells g c zl l = Except.ok ()) :
    ∀ lc ∈ l, ∀ cell n, g.get_cell lc = some cell →
      cell.content = CellContent.Number n → n ≤ zl := by
  induction l with
  | nil =>
    intro lc hm
    simp at hm
  | cons lc0 t ih =>
    intro lc hm cell n hg hct
    rcases hg0 : g.get_cell lc0 with _ | cell0
    · simp only [checkZoneUnexpectedCells, hg0] at h
      rcases List.mem_cons.1 hm with rfl | hm2
      · rw [hg0] at hg
        cases hg
      · exact ih h lc hm2 cell n hg hct
    · rcases hct0 : cell0.content with _ | n0 | set0
      · simp only [checkZoneUnexpectedCells, hg0, hct0] at h
        rcases List.mem_cons.1 hm with rfl | hm2
        · rw [hg0] at hg
          injection hg with hcell
          subst hcell
          rw [hct0] at hct
          cases hct
        · exact ih h lc hm2 cell n hg hct
      · simp only [checkZoneUnexpectedCells, hg0, hct0] at h
        by_cases hlt : zl < n0
        · rw [if_pos hlt] at h
          cases h
        · rw [if_neg hlt] at h
          rcases List.mem_cons.1 hm with rfl | hm2
          · rw [hg0] at hg
            injection hg with hcell
            subst hcell
            rw [hct0] at hct
            injection hct with hn
            omega
          · exact ih h lc hm2 cell n hg hct
      · simp only [checkZoneUnexpectedCells, hg0, hct0] at h
        rcases List.mem_cons.1 hm with rfl | hm2
        · rw [hg0] at hg
          injection hg with hcell
          subst hcell
          rw [hct0] at hct
          cases hct
        · exact ih h lc hm2 cell n hg hct

theorem checkZoneUnexpectedGo_ok {g : Grid} {zs : List (Char × Zone)}
    (h : checkZoneUnexpectedGo g zs = Except.ok ()) :
    ∀ c z, (c, z) ∈ zs → ∀ lc ∈ z.set_line_column, ∀ cell n,
      g.get_cell lc = some cell → cell.content = CellContent.Number n →
      n ≤ z.set_line_column.length := by
  induction zs with
  | nil =>
    intro c z hm
    simp at hm
  | cons q t ih =>
    intro c z hm
    rcases q with ⟨c0, z0⟩
    rcases hcc : checkZoneUnexpectedCells g c0 z0.set_line_column.length
        z0.set_line_column with e | u
    · simp only [checkZoneUnexpectedGo, hcc] at h
      cases h
    · cases u
      simp only [checkZoneUnexpectedGo, hcc] at h
      rcases List.mem_cons.1 hm with h1 | h1
      · injection h1 with hc hz
        subst hz
        exact checkZoneUnexpectedCells_ok hcc
      · exact ih h c z h1

theorem solveStepWith_ok_check {solveFn : Solver → SolveOut} {s : Solver}
    {a : SolvingAction}
    (h : (solveStepWith solveFn s).res = Except.ok a) :
    s.check = Except.ok () := by
  unfold solveStepWith at h
  rcases hc : s.check with e | u
  · simp [hc] at h
  · cases u
    rfl

/-- **C1** (amended): the consistency invariants hold on *entry* to any
`solve_step` call that returns `Ok` — the check runs before the step's
mutation, so a violation created by the step itself is only detected by the
next call.  On entry: the finalized digits of every zone are pairwise
distinct (as tracked by the check's 0–9 bit set), no finalized cell shares
its digit with an 8-neighbouring finalized cell, and — before candidate
initialization, the only time the source checks it — every finalized digit
is at most its zone's size. -/
theorem C1_invariants_at_entry (fuel : Nat) (s : Solver) (a : SolvingAction)
    (h : (solveStep fuel s).res = Except.ok a) :
    (∀ c z, (c, z) ∈ s.grid.hashmap_zones →
      (zoneNumbers9 s.grid z.set_line_column).Nodup) ∧
      (∀ lc1 cell1 n, s.grid.get_cell lc1 = some cell1 →
        cell1.content = CellContent.Number n →
        ∀ lc2 ∈ neighboringLineColumns lc1 s.grid.min_line_column
            s.grid.max_line_column,
          ∀ cell2, s.grid.get_cell lc2 = some cell2 →
            cell2.content ≠ CellContent.Number n) ∧
      (s.init_cell_contents = false →
        ∀ c z, (c, z) ∈ s.grid.hashmap_zones →
          ∀ lc ∈ z.set_line_column, ∀ cell n,
            s.grid.get_cell lc = some cell →
            cell.content = CellContent.Number n →
            n ≤ z.set_line_column.length) := by
  have hchk : s.check = Except.ok () := solveStepWith_ok_check h
  obtain ⟨hci, hnb, hzn, _⟩ := check_ok_split hchk
  refine ⟨?_, ?_, ?_⟩
  · exact checkZoneNumbersGo_ok hzn
  · intro lc1 cell1 n h1 h2 lc2 hmem cell2 h3
    exact checkNeighboringGo_ok hnb (lc1, cell1) (alookup_mem h1) n h2 lc2 hmem cell2 h3
  · intro hinit c z hm lc hmlc cell n hg hct
    obtain ⟨_, hzu⟩ := checkInitial_ok_split hinit hci
    exact checkZoneUnexpectedGo_ok hzu c z hm lc hmlc cell n hg hct

/-- Counterexample to C1 as stated: on `sAfterStep` the step succeeds with
the non-error action `SinglePossibleNumber (0,1) 1`, yet *afterwards* the
8-neighbouring cells `(0,0)` and `(0,1)` are both finalized to 1 — the
violation the claim says cannot exist after a successful step (it is only
reported by the next call). -/
theorem C1_counterexample :
    (solveStep 1 sAfterStep).res =
        Except.ok (SolvingAction.SinglePossibleNumber ⟨0, 1⟩ 1) ∧
      (solveStep 1 sAfterStep).solver.grid.get_cell ⟨0, 0⟩ =
        some ⟨'a', ⟨0, 0⟩, CellContent.Number 1⟩ ∧
      (solveStep 1 sAfterStep).solver.grid.get_cell ⟨0, 1⟩ =
        some ⟨'b', ⟨0, 1⟩, CellContent.Number 1⟩ ∧
      ⟨0, 1⟩ ∈ neighboringLineColumns ⟨0, 0⟩
        (solveStep 1 sAfterStep).solver.grid.min_line_column
        (solveStep 1 sAfterStep).solver.grid.max_line_column := by
  refine ⟨by decide, by decide, by decide, by decide⟩

theorem C1_invariants_at_entry_witness :
    (∀ c z, (c, z) ∈ sAfterStep.grid.hashmap_zones →
      (zoneNumbers9 sAfterStep.grid z.set_line_column).Nodup) ∧
      (∀ lc1 cell1 n, sAfterStep.grid.get_cell lc1 = some cell1 →
        cell1.content = CellContent.Number n →
        ∀ lc2 ∈ neighboringLineColumns lc1 sAfterStep.grid.min_line_column
            sAfterStep.grid.max_line_column,
          ∀ cell2, sAfterStep.grid.get_cell lc2 = some cell2 →
            cell2.content ≠ CellContent.Number n) ∧
      (sAfterStep.init_cell_contents = false →
        ∀ c z, (c, z) ∈ sAfterStep.grid.hashmap_zones →
          ∀ lc ∈ z.set_line_column, ∀ cell n,
            sAfterStep.grid.get_cell lc = some cell →
            cell.content = CellContent.Number n →
            n ≤ z.set_line_column.length) :=
  C1_invariants_at_entry 1 sAfterStep (SolvingAction.SinglePossibleNumber ⟨0, 1⟩ 1)
    (by decide)
